import Mathlib

/-!
# maxisynth: the `Synth` voice of `synth.h`

A shallow embedding of the class `Synth` (file `synth.h`) and of the parameter table of
`header.c`, followed by theorems about it.

Conventions of the embedding.

* `float` and `double` values are idealised as elements of a linearly ordered field `α`
  (exact arithmetic, no rounding, no NaN).  Definitions are generic in `α`, so they run on
  `ℚ`; theorems that need the true power function are stated at `α = ℝ` with `Real.rpow`.
  Where rounding or underflow decides a property (the pulse width bound, the sign of the
  resonance factor), the section on binary floating point computes the rounded values.
* `uint32_t gate_` is a natural number reduced modulo `2 ^ 32` where the code can overflow.
* `int32_t` values are integers; `value + 1` wraps like the target's 32-bit addition.
* The array `p_[24]` is a function on `Fin 24`; an access with an index of 24 or more is
  outside the array and is modelled as a failure (`none`).
* The Maximilian objects (`maxiPolyBLEP`, `maxiBiquad`, `maxiEnv`) are not part of `synth.h`.
  Their configuration is kept in records; their signal functions (`play`, `adsr`) and `powf`
  are arbitrary functions collected in `MaxiLib`.
* The build has `USE_MAXIENVGEN` commented out, so the `#else` branches are the code.
-/

namespace MaxiSynth

/-! ## Collaborators -/

/-- Modelled from the spec: the shapes `maxiPolyBLEP::Waveform` that `synth.h` selects,
"{sawtooth, rectangle/pulse, triangle} (default sawtooth)". -/
inductive Waveform
  | SAWTOOTH
  | RECTANGLE
  | TRIANGLE
  deriving DecidableEq, Repr

/-- Modelled from the spec: the oscillator runtime state of `maxiPolyBLEP`, "phase
accumulator, selected waveform shape, current pulse width", and its sample rate. -/
structure maxiPolyBLEP (α : Type) where
  waveform : Waveform
  pulseWidth : α
  sampleRate : α
  phase : α

/-- Modelled from the spec: `setWaveform(shape)` selects the shape. -/
def maxiPolyBLEP.setWaveform {α : Type} (o : maxiPolyBLEP α) (w : Waveform) : maxiPolyBLEP α :=
  { o with waveform := w }

/-- Modelled from the spec: `setPulseWidth(w)` sets the duty cycle. -/
def maxiPolyBLEP.setPulseWidth {α : Type} (o : maxiPolyBLEP α) (w : α) : maxiPolyBLEP α :=
  { o with pulseWidth := w }

/-- Modelled from the spec: `setSampleRate(rate)` configures the phase-increment scale. -/
def maxiPolyBLEP.setSampleRate {α : Type} (o : maxiPolyBLEP α) (r : α) : maxiPolyBLEP α :=
  { o with sampleRate := r }

/-- Modelled from the spec: the filter runtime state of `maxiBiquad`: the arguments of the
last `set(mode, cutoffHz, resonance, extraParam)` (the mode is always `LOWPASS`) and the
"internal delay memory". -/
structure maxiBiquad (α : Type) where
  cutoff : α
  q : α
  peakGain : α
  z1 : α
  z2 : α

/-- Modelled from the spec: `set(LOWPASS, cutoffHz, resonance, extraParam)` recomputes the
coefficients from its arguments. -/
def maxiBiquad.set {α : Type} (f : maxiBiquad α) (cutoff q peakGain : α) : maxiBiquad α :=
  { f with cutoff := cutoff, q := q, peakGain := peakGain }

/-- Modelled from the spec: the stages of the ADSR state machine. -/
inductive EnvStage
  | idle
  | attack
  | decay
  | sustain
  | release
  deriving DecidableEq, Repr

/-- Modelled from the spec: the envelope runtime state of `maxiEnv`, "stage, current output
level, per-stage time constants and target sustain level".  The time constants are kept as
the arguments last passed to the setters. -/
structure maxiEnv (α : Type) where
  attackMS : α
  decayMS : α
  sustainLevel : α
  releaseMS : α
  stage : EnvStage
  level : α

/-- Modelled from the spec: `setAttackMS` reconfigures the attack time. -/
def maxiEnv.setAttackMS {α : Type} (e : maxiEnv α) (x : α) : maxiEnv α :=
  { e with attackMS := x }

/-- Modelled from the spec: `setDecay` reconfigures the decay time. -/
def maxiEnv.setDecay {α : Type} (e : maxiEnv α) (x : α) : maxiEnv α :=
  { e with decayMS := x }

/-- Modelled from the spec: `setSustain` reconfigures the sustain level. -/
def maxiEnv.setSustain {α : Type} (e : maxiEnv α) (x : α) : maxiEnv α :=
  { e with sustainLevel := x }

/-- Modelled from the spec: `setRelease` reconfigures the release time. -/
def maxiEnv.setRelease {α : Type} (e : maxiEnv α) (x : α) : maxiEnv α :=
  { e with releaseMS := x }

/-- The functions of the C library and of Maximilian that `synth.h` calls and that compute
signals: `powf(base, x)`, `maxiPolyBLEP::play(frequency)`, `maxiEnv::adsr(input, trigger)`
and `maxiBiquad::play(sample)`.  Each returns its value together with the new state of the
object it belongs to.  They are arbitrary. -/
structure MaxiLib (α : Type) where
  powf : α → α → α
  oscPlay : maxiPolyBLEP α → α → α × maxiPolyBLEP α
  adsr : maxiEnv α → α → Int → α × maxiEnv α
  biquadPlay : maxiBiquad α → α → α × maxiBiquad α

/-- Modelled from the spec: the status codes of `unit.h` that `Init` returns, "surfaced to
the host as distinct error codes". -/
inductive UnitErr
  | k_unit_err_none
  | k_unit_err_samplerate
  | k_unit_err_geometry
  deriving DecidableEq, Repr

/-- Modelled from the spec: the fields of `unit_runtime_desc_t` that `Init` reads. -/
structure unit_runtime_desc_t where
  samplerate : Nat
  output_channels : Nat
  deriving DecidableEq, Repr

/-! ## `header.c` -/

/-- Modelled from the spec: the display types of a parameter descriptor, "plain integer,
percent, milliseconds, MIDI note". -/
inductive unit_param_type
  | k_unit_param_type_none
  | k_unit_param_type_percent
  | k_unit_param_type_msec
  | k_unit_param_type_midi_note
  deriving DecidableEq, Repr

/-- A parameter descriptor of `header.c`, in the order of its format comment: min, max,
center, default, type, fractional, frac. type, reserved, name. -/
structure unit_param_t where
  min : Int
  max : Int
  center : Int
  init : Int
  type : unit_param_type
  frac : Nat
  frac_mode : Nat
  reserved : Nat
  name : String
  deriving DecidableEq, Repr

/-- The empty descriptor that fills pages 4 to 6 of `unit_header.params`. -/
def unused_param : unit_param_t :=
  { min := 0, max := 0, center := 0, init := 0,
    type := unit_param_type.k_unit_param_type_none,
    frac := 0, frac_mode := 0, reserved := 0, name := "" }

/-- Field `.num_params` of `unit_header`. -/
def num_params : Nat := 12

/-- Field `.params` of `unit_header`: twelve descriptors and twelve unused slots. -/
def params : List unit_param_t :=
  [ { min := 0, max := 127, center := 60, init := 60,
      type := unit_param_type.k_unit_param_type_midi_note,
      frac := 0, frac_mode := 0, reserved := 0, name := "Note" },
    { min := 0, max := 2, center := 0, init := 0,
      type := unit_param_type.k_unit_param_type_none,
      frac := 0, frac_mode := 0, reserved := 0, name := "Wave" },
    { min := 0, max := 1270, center := 0, init := 1270,
      type := unit_param_type.k_unit_param_type_none,
      frac := 1, frac_mode := 1, reserved := 0, name := "Cutoff" },
    { min := -128, max := 128, center := 0, init := -16,
      type := unit_param_type.k_unit_param_type_none,
      frac := 5, frac_mode := 0, reserved := 0, name := "Reso" },
    { min := 0, max := 1000, center := 0, init := 0,
      type := unit_param_type.k_unit_param_type_msec,
      frac := 0, frac_mode := 0, reserved := 0, name := "Attack" },
    { min := 0, max := 1000, center := 0, init := 0,
      type := unit_param_type.k_unit_param_type_msec,
      frac := 0, frac_mode := 0, reserved := 0, name := "Decay" },
    { min := 0, max := 100, center := 0, init := 100,
      type := unit_param_type.k_unit_param_type_percent,
      frac := 0, frac_mode := 0, reserved := 0, name := "Sustain" },
    { min := 0, max := 1000, center := 0, init := 0,
      type := unit_param_type.k_unit_param_type_msec,
      frac := 0, frac_mode := 0, reserved := 0, name := "Release" },
    { min := 0, max := 100, center := 0, init := 100,
      type := unit_param_type.k_unit_param_type_percent,
      frac := 0, frac_mode := 0, reserved := 0, name := "EG >AMP" },
    { min := -100, max := 100, center := 0, init := 0,
      type := unit_param_type.k_unit_param_type_percent,
      frac := 0, frac_mode := 0, reserved := 0, name := ">Pitch" },
    { min := -100, max := 100, center := 0, init := 0,
      type := unit_param_type.k_unit_param_type_percent,
      frac := 0, frac_mode := 0, reserved := 0, name := ">Cutoff" },
    { min := 0, max := 100, center := 0, init := 0,
      type := unit_param_type.k_unit_param_type_percent,
      frac := 0, frac_mode := 0, reserved := 0, name := ">PWM" } ] ++
  List.replicate 12 unused_param

/-- Whether a value lies in the declared range `min .. max` of parameter `index`. -/
def inDeclaredRange (index : Nat) (value : Int) : Bool :=
  match params.get? index with
  | some d => decide (d.min ≤ value) && decide (value ≤ d.max)
  | none => false

/-! ## `synth.h` -/

/-- Result of `note2freq(note)`: `(440.f / 32) * powf(2, (note - 9.0) / 12)`. -/
def note2freq {α : Type} [LinearOrderedField α] (powf : α → α → α) (note : α) : α :=
  (440 / 32) * powf 2 ((note - 9) / 12)

/-- Indices of `enum Params`. -/
inductive Params
  | Note
  | Waveform
  | Cutoff
  | Resonance
  | Attack
  | Decay
  | Sustain
  | Release
  | EnvAmpInt
  | EnvPitchInt
  | EnvCutoffInt
  | EnvPWMInt
  deriving DecidableEq, Repr

/-- Numeric value of an enumerator of `enum Params` (`Note = 0`, then consecutive). -/
def Params.toNat : Params → Nat
  | .Note => 0
  | .Waveform => 1
  | .Cutoff => 2
  | .Resonance => 3
  | .Attack => 4
  | .Decay => 5
  | .Sustain => 6
  | .Release => 7
  | .EnvAmpInt => 8
  | .EnvPitchInt => 9
  | .EnvCutoffInt => 10
  | .EnvPWMInt => 11

/-- The enumerator of `enum Params` with a given numeric value, if there is one. -/
def Params.ofNat? : Nat → Option Params
  | 0 => some .Note
  | 1 => some .Waveform
  | 2 => some .Cutoff
  | 3 => some .Resonance
  | 4 => some .Attack
  | 5 => some .Decay
  | 6 => some .Sustain
  | 7 => some .Release
  | 8 => some .EnvAmpInt
  | 9 => some .EnvPitchInt
  | 10 => some .EnvCutoffInt
  | 11 => some .EnvPWMInt
  | _ => none

/-- An integer reduced to the range `-2^31 .. 2^31 - 1` of `int32_t`, the way a 32-bit
addition on the target wraps. -/
def wrapInt32 (x : Int) : Int :=
  (x + 2147483648) % 4294967296 - 2147483648

/-- The private member variables of `class Synth`, together with the global
`maxiSettings::sampleRate` that `Init` writes. -/
structure Synth (α : Type) where
  p_ : Fin 24 → Int
  oscillator_ : maxiPolyBLEP α
  filter_ : maxiBiquad α
  envelope_ : maxiEnv α
  note_ : Int
  amp_ : α
  gate_ : Nat
  cutoffOffset_ : α
  resonance_ : α
  egAmp_ : α
  egAmpRev_ : α
  egPitch_ : α
  egCutoff_ : α
  egPwm_ : α
  maxiSettings_sampleRate : α

section Code

variable {α : Type} [LinearOrderedField α]

/-- Method `Synth::Init`: the status code and the state after the call. -/
def Init (s : Synth α) (desc : unit_runtime_desc_t) : UnitErr × Synth α :=
  if desc.samplerate ≠ 48000 then
    (UnitErr.k_unit_err_samplerate, s)
  else if desc.output_channels ≠ 2 then
    (UnitErr.k_unit_err_geometry, s)
  else
    (UnitErr.k_unit_err_none,
      { s with
        maxiSettings_sampleRate := 48000
        oscillator_ := s.oscillator_.setSampleRate 48000 })

/-- Method `Synth::Teardown`. -/
def Teardown (s : Synth α) : Synth α := s

/-- Method `Synth::Reset`. -/
def Reset (s : Synth α) : Synth α :=
  { s with
    oscillator_ := s.oscillator_.setWaveform Waveform.SAWTOOTH
    gate_ := 0 }

/-- Method `Synth::Resume`. -/
def Resume (s : Synth α) : Synth α := s

/-- Method `Synth::Suspend`. -/
def Suspend (s : Synth α) : Synth α := s

/-- The derived state that the `switch` of `Synth::setParameter` recomputes; an index
without a `case` falls to `default`.  Results are exact; `egPwmFloat` and `resonanceFloat`
give the `float` that the code stores in `egPwm_` and `resonance_`. -/
def setDerived (m : MaxiLib α) (s : Synth α) (index : Nat) (value : Int) : Synth α :=
  match Params.ofNat? index with
  | some Params.Note => { s with note_ := value }
  | some Params.Waveform =>
    if value = 2 then
      { s with oscillator_ := s.oscillator_.setWaveform Waveform.TRIANGLE }
    else if value = 1 then
      { s with oscillator_ := s.oscillator_.setWaveform Waveform.RECTANGLE }
    else
      { s with oscillator_ := s.oscillator_.setWaveform Waveform.SAWTOOTH }
  | some Params.Cutoff => { s with cutoffOffset_ := (1 / 10) * (value : α) - 127 / 2 }
  | some Params.Resonance => { s with resonance_ := m.powf 2 (1 / 32 * (value : α)) }
  | some Params.Attack =>
    { s with envelope_ := s.envelope_.setAttackMS ((wrapInt32 (value + 1) : Int) : α) }
  | some Params.Decay =>
    { s with envelope_ := s.envelope_.setDecay ((wrapInt32 (value + 1) : Int) : α) }
  | some Params.Sustain =>
    { s with envelope_ := s.envelope_.setSustain ((1 / 100) * (value : α)) }
  | some Params.Release =>
    { s with envelope_ := s.envelope_.setRelease ((wrapInt32 (value + 1) : Int) : α) }
  | some Params.EnvAmpInt =>
    { s with
      egAmp_ := (1 / 100) * (value : α)
      egAmpRev_ := 1 - (1 / 100) * (value : α) }
  | some Params.EnvPitchInt => { s with egPitch_ := (24 / 100) * (value : α) }
  | some Params.EnvCutoffInt => { s with egCutoff_ := (6 / 10) * (value : α) }
  | some Params.EnvPWMInt => { s with egPwm_ := (49 / 10000) * (value : α) }
  | none => s

/-- Method `Synth::setParameter`: `p_[index] = value`, then the `switch`.  The store is
inside the array only for `index < 24`. -/
def setParameter (m : MaxiLib α) (s : Synth α) (index : Nat) (value : Int) :
    Option (Synth α) :=
  if h : index < 24 then
    some (setDerived m { s with p_ := Function.update s.p_ ⟨index, h⟩ value } index value)
  else
    none

/-- Method `Synth::getParameterValue`: `p_[index]`, inside the array only for
`index < 24`. -/
def getParameterValue (s : Synth α) (index : Nat) : Option Int :=
  if h : index < 24 then some (s.p_ ⟨index, h⟩) else none

/-- Method `Synth::GateOn`. -/
def GateOn (s : Synth α) (velocity : Nat) : Synth α :=
  { s with
    amp_ := 1 / 127 * (velocity : α)
    gate_ := (s.gate_ + 1) % 4294967296 }

/-- Method `Synth::GateOff`. -/
def GateOff (s : Synth α) : Synth α :=
  if 0 < s.gate_ then { s with gate_ := s.gate_ - 1 } else s

/-- Method `Synth::NoteOn`. -/
def NoteOn (s : Synth α) (note velocity : Nat) : Synth α :=
  GateOn { s with note_ := (note : Int) } velocity

/-- Method `Synth::NoteOff`. -/
def NoteOff (s : Synth α) (_note : Nat) : Synth α :=
  GateOff s

/-- Method `Synth::AllNoteOff`. -/
def AllNoteOff (s : Synth α) : Synth α := s

/-- Method `Synth::PitchBend`. -/
def PitchBend (s : Synth α) (_bend : Nat) : Synth α := s

/-- Method `Synth::ChannelPressure`. -/
def ChannelPressure (s : Synth α) (_pressure : Nat) : Synth α := s

/-- Method `Synth::Aftertouch`. -/
def Aftertouch (s : Synth α) (_note _aftertouch : Nat) : Synth α := s

/-- Method `Synth::LoadPreset`. -/
def LoadPreset (s : Synth α) (_idx : Nat) : Synth α := s

/-- Method `Synth::getPresetIndex`. -/
def getPresetIndex (_s : Synth α) : Nat := 0

/-! ### `Synth::Render` -/

/-- A call that one frame of `Synth::Render` makes to a collaborator, with the arguments it
passes, or its store `vst1_f32(out_p, vdup_n_f32(sig))`, which writes `sig` to the two
slots `out_p[0]` and `out_p[1]`.  Slots are counted in floats from `out`. -/
inductive Call (α : Type)
  | adsr (input : α) (trigger : Int)
  | setPulseWidth (w : α)
  | oscPlay (frequency : α)
  | filterSet (cutoff q peakGain : α)
  | filterPlay (x : α)
  | vst1 (slot : Nat) (sig : α)

/-- The state of a running `Render`: the synth, the output buffer (slot to float), the
pointer `out_p` as a slot offset from `out`, and two records kept for the proofs: the calls
made so far, oldest first, and the number of loop iterations performed. -/
structure RenderState (α : Type) where
  synth : Synth α
  out : Nat → α
  out_p : Nat
  trace : List (Call α)
  iters : Nat

/-- Render line `const int trigger = (gate_ > 0);`. -/
def triggerOf (s : Synth α) : Int :=
  if 0 < s.gate_ then 1 else 0

/-- Render expression `note2freq(note_ + egPitch_ * env)`. -/
def pitchOf (m : MaxiLib α) (s : Synth α) (env : α) : α :=
  note2freq m.powf ((s.note_ : α) + s.egPitch_ * env)

/-- Render expression `0.5f + egPwm_ * env`. -/
def pulseWidthOf (s : Synth α) (env : α) : α :=
  1 / 2 + s.egPwm_ * env

/-- Render lines `cutoff_note = note_ + cutoffOffset_ + egCutoff_ * env` and
`cutoff = min(23999., note2freq(max(0., cutoff_note)))`. -/
def cutoffOf (m : MaxiLib α) (s : Synth α) (env : α) : α :=
  min 23999 (note2freq m.powf (max 0 ((s.note_ : α) + s.cutoffOffset_ + s.egCutoff_ * env)))

/-- Render expression `egAmp_ * env + egAmpRev_ * trigger`. -/
def gainOf (s : Synth α) (env : α) (trigger : Int) : α :=
  s.egAmp_ * env + s.egAmpRev_ * (trigger : α)

/-- One iteration of the loop of `Synth::Render`, `out_p += 2` included. -/
def renderFrame (m : MaxiLib α) (trigger : Int) (st : RenderState α) : RenderState α :=
  let s := st.synth
  let e := m.adsr s.envelope_ 1 trigger
  let env := e.1
  let pitch := pitchOf m s env
  let pw := pulseWidthOf s env
  let o := m.oscPlay (s.oscillator_.setPulseWidth pw) pitch
  let cutoff := cutoffOf m s env
  let f := m.biquadPlay (s.filter_.set cutoff s.resonance_ 2) (o.1 * s.amp_)
  let sig := f.1 * gainOf s env trigger
  { synth := { s with envelope_ := e.2, oscillator_ := o.2, filter_ := f.2 }
    out := Function.update (Function.update st.out st.out_p sig) (st.out_p + 1) sig
    out_p := st.out_p + 2
    trace := st.trace ++
      [Call.adsr 1 trigger, Call.setPulseWidth pw, Call.oscPlay pitch,
       Call.filterSet cutoff s.resonance_ 2, Call.filterPlay (o.1 * s.amp_),
       Call.vst1 st.out_p sig]
    iters := st.iters + 1 }

/-- The loop `for (; out_p != out_e; out_p += 2)` of `Synth::Render`, run for at most
`fuel` iterations; `none` when the fuel runs out before `out_p` meets `out_e`. -/
def renderLoop (m : MaxiLib α) (trigger : Int) (out_e : Nat) :
    Nat → RenderState α → Option (RenderState α)
  | 0, st => if st.out_p = out_e then some st else none
  | fuel + 1, st =>
    if st.out_p = out_e then some st
    else renderLoop m trigger out_e fuel (renderFrame m trigger st)

/-- Method `Synth::Render`, with `out_e = out_p + (frames << 1)`.  The buffer holds
`2 * frames` floats, so the shift does not overflow `size_t`. -/
def Render (m : MaxiLib α) (s : Synth α) (out : Nat → α) (frames fuel : Nat) :
    Option (RenderState α) :=
  renderLoop m (triggerOf s) (0 + (frames <<< 1)) fuel
    { synth := s, out := out, out_p := 0, trace := [], iters := 0 }

/-- The buffer slots that the stores of a call list write, in order. -/
def writtenSlots : List (Call α) → List Nat
  | [] => []
  | Call.vst1 p _ :: cs => p :: (p + 1) :: writtenSlots cs
  | _ :: cs => writtenSlots cs

/-- The triggers that the `adsr` calls of a call list pass, in order. -/
def adsrTriggers : List (Call α) → List Int
  | [] => []
  | Call.adsr _ t :: cs => t :: adsrTriggers cs
  | _ :: cs => adsrTriggers cs

/-- The cutoff frequencies that the `filter_.set` calls of a call list pass, in order. -/
def filterCutoffs : List (Call α) → List α
  | [] => []
  | Call.filterSet c _ _ :: cs => c :: filterCutoffs cs
  | _ :: cs => filterCutoffs cs

/-- The pulse widths that the `setPulseWidth` calls of a call list pass, in order. -/
def pulseWidths : List (Call α) → List α
  | [] => []
  | Call.setPulseWidth w :: cs => w :: pulseWidths cs
  | _ :: cs => pulseWidths cs

/-- The frequencies that the `oscillator_.play` calls of a call list pass, in order. -/
def oscFrequencies : List (Call α) → List α
  | [] => []
  | Call.oscPlay f :: cs => f :: oscFrequencies cs
  | _ :: cs => oscFrequencies cs

/-- The shape that `case Waveform` of `setParameter` selects for a value: the shape mapped
from a Waveform parameter value. -/
def waveformOfValue (value : Int) : Waveform :=
  if value = 2 then Waveform.TRIANGLE
  else if value = 1 then Waveform.RECTANGLE
  else Waveform.SAWTOOTH

/-- The oscillator shape is the shape mapped from the stored Waveform parameter `p_[1]`. -/
def WaveformInSync (s : Synth α) : Prop :=
  s.oscillator_.waveform = waveformOfValue (s.p_ ⟨1, by decide⟩)

/-! ### Sequences of note events -/

/-- A call of `NoteOn(note, velocity)` or of `NoteOff(note)`. -/
inductive NoteEvent
  | noteOn (note velocity : Nat)
  | noteOff (note : Nat)
  deriving DecidableEq, Repr

/-- The synth after one note event. -/
def applyEvent (s : Synth α) : NoteEvent → Synth α
  | NoteEvent.noteOn n v => NoteOn s n v
  | NoteEvent.noteOff n => NoteOff s n

/-- The synth after a sequence of note events, first event first. -/
def runEvents (s : Synth α) (evs : List NoteEvent) : Synth α :=
  evs.foldl applyEvent s

/-- Number of `NoteOn` calls in a sequence. -/
def countOn : List NoteEvent → Nat
  | [] => 0
  | NoteEvent.noteOn _ _ :: evs => countOn evs + 1
  | NoteEvent.noteOff _ :: evs => countOn evs

/-- Number of `NoteOff` calls in a sequence. -/
def countOff : List NoteEvent → Nat
  | [] => 0
  | NoteEvent.noteOn _ _ :: evs => countOff evs
  | NoteEvent.noteOff _ :: evs => countOff evs + 1

/-- A sequence is nested from depth `g` when, after each of its initial segments, the
`NoteOff` calls do not outnumber `g` plus the `NoteOn` calls, and fewer than `2 ^ 32` calls
are unmatched. -/
def Nested (g : Nat) (evs : List NoteEvent) : Prop :=
  ∀ k, k ≤ evs.length →
    countOff (evs.take k) ≤ g + countOn (evs.take k) ∧
      g + countOn (evs.take k) - countOff (evs.take k) < 4294967296

/-- The balance of a sequence: its number of `NoteOn` calls minus its number of `NoteOff`
calls. -/
def balance (evs : List NoteEvent) : Int :=
  (countOn evs : Int) - (countOff evs : Int)

/-- No run of consecutive calls of the sequence (the calls `j + 1 .. k`) has `2 ^ 32` or
more `NoteOn` than `NoteOff` calls: the condition under which a counter that starts at 0
and ignores a `NoteOff` at 0 never reaches `2 ^ 32`. -/
def NoWrap (evs : List NoteEvent) : Prop :=
  ∀ k, k ≤ evs.length → ∀ j, j ≤ k →
    balance (evs.take k) - balance (evs.take j) < 4294967296

end Code

/-! ## Binary floating point

The definitions above keep `float` and `double` results exact.  The definitions of this
section compute, for two expressions of `synth.h`, the value that IEEE 754 arithmetic with
round-to-nearest-even gives: `float` is binary32 (24 significant bits, least exponent
`-149`), `double` is binary64 (53 significant bits, least exponent `-1074`).  A
non-negative binary number is a pair `(k, s)` that stands for `k / 2 ^ s`. -/

/-- The multiple of `2 ^ (-s)` nearest to the non-negative rational `n / d`, as its
numerator; a tie goes to the even numerator. -/
def roundNearestEven (n d s : Nat) : Nat :=
  if 2 * (n * 2 ^ s % d) < d then n * 2 ^ s / d
  else if d < 2 * (n * 2 ^ s % d) then n * 2 ^ s / d + 1
  else if n * 2 ^ s / d % 2 = 0 then n * 2 ^ s / d
  else n * 2 ^ s / d + 1

/-- The scale of the binary format around `n / d`: the largest `s`, at most `fuel` above
the start, with `n / d * 2 ^ s < 2 ^ prec`, so that multiples of `2 ^ (-s)` near `n / d`
have `prec` significant bits (fewer at the least exponent). -/
def binaryScale (prec n d : Nat) : Nat → Nat → Nat
  | 0, s => s
  | fuel + 1, s =>
    if n * 2 ^ (s + 1) / d < 2 ^ prec then binaryScale prec n d fuel (s + 1) else s

/-- The number of a binary format with `prec` significant bits and least exponent
`-maxScale` that is nearest to `n / d`, for `0 ≤ n / d < 2 ^ prec`. -/
def roundBinary (prec maxScale n d : Nat) : Nat × Nat :=
  (roundNearestEven n d (binaryScale prec n d maxScale 0), binaryScale prec n d maxScale 0)

/-- Conversion or rounding to `float` (binary32). -/
def roundFloat (n d : Nat) : Nat × Nat :=
  roundBinary 24 149 n d

/-- Conversion or rounding to `double` (binary64). -/
def roundDouble (n d : Nat) : Nat × Nat :=
  roundBinary 53 1074 n d

/-- The rational that a binary number `(k, s)` stands for. -/
def binaryValue (x : Nat × Nat) : ℚ :=
  (x.1 : ℚ) / 2 ^ x.2

/-- The `float` that `case EnvPWMInt` stores in `egPwm_` for a value `value ≥ 0`:
`egPwm_ = 0.0049 * value`, the `double` constant `0.0049` times the value in `double`
arithmetic, converted to `float`. -/
def egPwmFloat (value : Nat) : Nat × Nat :=
  roundFloat
    (roundDouble ((roundDouble 49 10000).1 * value) (2 ^ (roundDouble 49 10000).2)).1
    (2 ^ (roundDouble ((roundDouble 49 10000).1 * value) (2 ^ (roundDouble 49 10000).2)).2)

/-- The `float` that `Render` passes to `setPulseWidth`, `0.5f + egPwm_ * env`, for a
parameter value `value ≥ 0` and a `float` envelope level `env ≥ 0`: the product rounded to
`float`, then the sum rounded to `float`. -/
def pulseWidthFloat (value : Nat) (env : Nat × Nat) : Nat × Nat :=
  roundFloat
    (2 ^ (roundFloat ((egPwmFloat value).1 * env.1)
        (2 ^ ((egPwmFloat value).2 + env.2))).2 +
      2 * (roundFloat ((egPwmFloat value).1 * env.1)
        (2 ^ ((egPwmFloat value).2 + env.2))).1)
    (2 * 2 ^ (roundFloat ((egPwmFloat value).1 * env.1)
        (2 ^ ((egPwmFloat value).2 + env.2))).2)

/-- A sample collaborator library over `ℚ`: every signal function returns 0 and leaves its
object unchanged, `powf` returns 1. -/
def demoLib : MaxiLib ℚ where
  powf := fun _ _ => 1
  oscPlay := fun o _ => (0, o)
  adsr := fun e _ _ => (0, e)
  biquadPlay := fun f _ => (0, f)

/-- A sample state over `ℚ`: every number is 0, the shape is a triangle. -/
def demoSynth : Synth ℚ where
  p_ := fun _ => 0
  oscillator_ := { waveform := Waveform.TRIANGLE, pulseWidth := 0, sampleRate := 0, phase := 0 }
  filter_ := { cutoff := 0, q := 0, peakGain := 0, z1 := 0, z2 := 0 }
  envelope_ :=
    { attackMS := 0, decayMS := 0, sustainLevel := 0, releaseMS := 0,
      stage := EnvStage.idle, level := 0 }
  note_ := 0
  amp_ := 0
  gate_ := 0
  cutoffOffset_ := 0
  resonance_ := 0
  egAmp_ := 0
  egAmpRev_ := 0
  egPitch_ := 0
  egCutoff_ := 0
  egPwm_ := 0
  maxiSettings_sampleRate := 0


/-! ## Lemmas on the gate counter -/

section GateLemmas

variable {α : Type}

theorem gate_NoteOn [LinearOrderedField α] (s : Synth α) (note velocity : Nat) :
    (NoteOn s note velocity).gate_ = (s.gate_ + 1) % 4294967296 := rfl

theorem gate_NoteOff (s : Synth α) (note : Nat) :
    (NoteOff s note).gate_ = s.gate_ - 1 := by
  unfold NoteOff GateOff
  split
  · rfl
  · omega

theorem runEvents_snoc [LinearOrderedField α] (s : Synth α) (evs : List NoteEvent) (e : NoteEvent) :
    runEvents s (evs ++ [e]) = applyEvent (runEvents s evs) e := by
  simp [runEvents, List.foldl_append]

theorem countOn_snoc (evs : List NoteEvent) (e : NoteEvent) :
    countOn (evs ++ [e]) = countOn evs + countOn [e] := by
  induction evs with
  | nil => simp [countOn]
  | cons a evs ih => (cases a <;> simp [countOn, ih]); omega

theorem countOff_snoc (evs : List NoteEvent) (e : NoteEvent) :
    countOff (evs ++ [e]) = countOff evs + countOff [e] := by
  induction evs with
  | nil => simp [countOff]
  | cons a evs ih => (cases a <;> simp [countOff, ih]); omega

theorem Nested.init {g : Nat} {evs : List NoteEvent} {e : NoteEvent}
    (h : Nested g (evs ++ [e])) : Nested g evs := by
  intro k hk
  have := h k (by simp; omega)
  rwa [List.take_append_of_le_length hk] at this

theorem Nested.last {g : Nat} {evs : List NoteEvent} (h : Nested g evs) :
    countOff evs ≤ g + countOn evs ∧ g + countOn evs - countOff evs < 4294967296 := by
  have := h evs.length le_rfl
  rwa [List.take_length] at this

/-- On a nested sequence the 32-bit counter never saturates and never wraps: it counts the
unmatched `NoteOn` calls. -/
theorem gate_runEvents_of_nested [LinearOrderedField α] (s : Synth α) (evs : List NoteEvent)
    (h : Nested s.gate_ evs) :
    (runEvents s evs).gate_ + countOff evs = s.gate_ + countOn evs := by
  induction evs using List.reverseRecOn with
  | nil => simp [runEvents, countOn, countOff]
  | append_singleton evs e ih =>
    have ih := ih h.init
    have hl := h.last
    rw [runEvents_snoc, countOn_snoc, countOff_snoc] at *
    cases e with
    | noteOn n v =>
      simp only [applyEvent, gate_NoteOn, countOn, countOff] at *
      omega
    | noteOff n =>
      simp only [applyEvent, gate_NoteOff, countOn, countOff] at *
      omega

/-- After `k` further `NoteOn` calls the 32-bit counter holds `gate_ + k` modulo `2 ^ 32`. -/
theorem gate_runEvents_replicate_noteOn [LinearOrderedField α] (s : Synth α) (n v k : Nat)
    (hs : s.gate_ < 4294967296) :
    (runEvents s (List.replicate k (NoteEvent.noteOn n v))).gate_ =
      (s.gate_ + k) % 4294967296 := by
  induction k with
  | zero =>
    simp only [List.replicate_zero, runEvents, List.foldl_nil]
    omega
  | succ k ih =>
    rw [List.replicate_succ', runEvents_snoc]
    simp only [applyEvent, gate_NoteOn, ih]
    omega

theorem countOn_replicate_noteOn (n v k : Nat) :
    countOn (List.replicate k (NoteEvent.noteOn n v)) = k := by
  induction k with
  | zero => rfl
  | succ k ih => simp [List.replicate_succ, countOn, ih]

theorem countOff_replicate_noteOn (n v k : Nat) :
    countOff (List.replicate k (NoteEvent.noteOn n v)) = 0 := by
  induction k with
  | zero => rfl
  | succ k ih => simp [List.replicate_succ, countOff, ih]

theorem balance_nil : balance [] = 0 := rfl

theorem balance_snoc_noteOn (evs : List NoteEvent) (n v : Nat) :
    balance (evs ++ [NoteEvent.noteOn n v]) = balance evs + 1 := by
  unfold balance
  rw [countOn_snoc, countOff_snoc]
  simp [countOn, countOff]
  ring

theorem balance_snoc_noteOff (evs : List NoteEvent) (n : Nat) :
    balance (evs ++ [NoteEvent.noteOff n]) = balance evs - 1 := by
  unfold balance
  rw [countOn_snoc, countOff_snoc]
  simp [countOn, countOff]
  ring

theorem take_snoc_of_le (evs : List NoteEvent) (e : NoteEvent) {k : Nat}
    (hk : k ≤ evs.length) : (evs ++ [e]).take k = evs.take k :=
  List.take_append_of_le_length hk

theorem take_snoc_all (evs : List NoteEvent) (e : NoteEvent) :
    (evs ++ [e]).take (evs.length + 1) = evs ++ [e] :=
  List.take_of_length_le (by simp)

theorem noWrap_of_snoc {evs : List NoteEvent} {e : NoteEvent} (h : NoWrap (evs ++ [e])) :
    NoWrap evs := by
  intro k hk j hj
  have := h k (by simp; omega) j hj
  rwa [take_snoc_of_le evs e hk, take_snoc_of_le evs e (le_trans hj hk)] at this

/-- Without a wrap, the counter that starts at 0 holds the balance of the sequence minus
the least balance of its initial segments: it is at least every difference
`balance evs - balance (evs.take k)` and it is one of them. -/
theorem gate_runEvents_exact [LinearOrderedField α] (s : Synth α) (hs : s.gate_ = 0)
    (evs : List NoteEvent) (h : NoWrap evs) :
    (∀ k, k ≤ evs.length →
        balance evs - balance (evs.take k) ≤ ((runEvents s evs).gate_ : Int)) ∧
      ∃ k, k ≤ evs.length ∧
        ((runEvents s evs).gate_ : Int) = balance evs - balance (evs.take k) := by
  induction evs using List.reverseRecOn with
  | nil =>
    refine ⟨?_, 0, le_rfl, ?_⟩
    · intro k _
      simp [runEvents, hs, balance_nil]
    · simp [runEvents, hs, balance_nil]
  | append_singleton evs e ih =>
    obtain ⟨ha, j, hj, hb⟩ := ih (noWrap_of_snoc h)
    have hlen : (evs ++ [e]).length = evs.length + 1 := by simp
    have hwrap := h (evs.length + 1) (by simp) j (by omega)
    rw [take_snoc_all, take_snoc_of_le evs e hj] at hwrap
    have ha0 := ha 0 (Nat.zero_le _)
    have hanon : (0 : Int) ≤ ((runEvents s evs).gate_ : Int) := Int.natCast_nonneg _
    rw [runEvents_snoc]
    cases e with
    | noteOn n v =>
      rw [balance_snoc_noteOn] at hwrap
      have hlt : (runEvents s evs).gate_ + 1 < 4294967296 := by omega
      have hg : (applyEvent (runEvents s evs) (NoteEvent.noteOn n v)).gate_ =
          (runEvents s evs).gate_ + 1 := by
        simp only [applyEvent, gate_NoteOn]
        exact Nat.mod_eq_of_lt hlt
      rw [hg, balance_snoc_noteOn]
      refine ⟨?_, j, by omega, ?_⟩
      · intro k hk
        rw [hlen] at hk
        by_cases hk2 : k ≤ evs.length
        · rw [take_snoc_of_le evs _ hk2]
          have := ha k hk2
          push_cast
          omega
        · have hk3 : k = evs.length + 1 := by omega
          rw [hk3, take_snoc_all, balance_snoc_noteOn]
          push_cast
          omega
      · rw [take_snoc_of_le evs _ hj]
        push_cast
        omega
    | noteOff n =>
      have hg : (applyEvent (runEvents s evs) (NoteEvent.noteOff n)).gate_ =
          (runEvents s evs).gate_ - 1 := by
        simp only [applyEvent, gate_NoteOff]
      rw [hg, balance_snoc_noteOff]
      by_cases hpos : 0 < (runEvents s evs).gate_
      · refine ⟨?_, j, by omega, ?_⟩
        · intro k hk
          rw [hlen] at hk
          by_cases hk2 : k ≤ evs.length
          · rw [take_snoc_of_le evs _ hk2]
            have := ha k hk2
            omega
          · have hk3 : k = evs.length + 1 := by omega
            rw [hk3, take_snoc_all, balance_snoc_noteOff]
            omega
        · rw [take_snoc_of_le evs _ hj]
          omega
      · refine ⟨?_, evs.length + 1, by omega, ?_⟩
        · intro k hk
          rw [hlen] at hk
          by_cases hk2 : k ≤ evs.length
          · rw [take_snoc_of_le evs _ hk2]
            have := ha k hk2
            omega
          · have hk3 : k = evs.length + 1 := by omega
            rw [hk3, take_snoc_all, balance_snoc_noteOff]
            omega
        · rw [take_snoc_all, balance_snoc_noteOff]
          omega

end GateLemmas

/-! ## Lemmas on the parameter store -/

section ParamLemmas

variable {α : Type} [LinearOrderedField α]

/-- The `switch` of `setParameter` never writes `p_`. -/
theorem setDerived_p_ (m : MaxiLib α) (s : Synth α) (index : Nat) (value : Int) :
    (setDerived m s index value).p_ = s.p_ := by
  unfold setDerived
  split <;> first | rfl | (split_ifs <;> rfl)

theorem setParameter_eq_some (m : MaxiLib α) (s : Synth α) (index : Nat) (value : Int)
    (h : index < 24) :
    setParameter m s index value =
      some (setDerived m { s with p_ := Function.update s.p_ ⟨index, h⟩ value } index value) := by
  simp [setParameter, h]

/-- The stored values after `setParameter`: slot `index` holds the value, the others are
unchanged. -/
theorem setParameter_p_ (m : MaxiLib α) (s s1 : Synth α) (index : Nat) (value : Int)
    (h : index < 24) (hs : setParameter m s index value = some s1) :
    s1.p_ = Function.update s.p_ ⟨index, h⟩ value := by
  rw [setParameter_eq_some m s index value h] at hs
  injection hs with hs
  rw [← hs, setDerived_p_]

theorem wrapInt32_eq_self (x : Int) (hlo : -2147483648 ≤ x) (hhi : x ≤ 2147483647) :
    wrapInt32 x = x := by
  unfold wrapInt32
  omega

theorem inDeclaredRange_Sustain (v : Int) :
    inDeclaredRange Params.Sustain.toNat v = true ↔ 0 ≤ v ∧ v ≤ 100 := by
  simp [inDeclaredRange, params, Params.toNat]

theorem inDeclaredRange_EnvAmpInt (v : Int) :
    inDeclaredRange Params.EnvAmpInt.toNat v = true ↔ 0 ≤ v ∧ v ≤ 100 := by
  simp [inDeclaredRange, params, Params.toNat]

theorem inDeclaredRange_EnvPitchInt (v : Int) :
    inDeclaredRange Params.EnvPitchInt.toNat v = true ↔ -100 ≤ v ∧ v ≤ 100 := by
  simp [inDeclaredRange, params, Params.toNat]

theorem inDeclaredRange_EnvPWMInt (v : Int) :
    inDeclaredRange Params.EnvPWMInt.toNat v = true ↔ 0 ≤ v ∧ v ≤ 100 := by
  simp [inDeclaredRange, params, Params.toNat]

theorem inDeclaredRange_Note (v : Int) :
    inDeclaredRange Params.Note.toNat v = true ↔ 0 ≤ v ∧ v ≤ 127 := by
  simp [inDeclaredRange, params, Params.toNat]

end ParamLemmas


/-! ## Lemmas on the render loop -/

section RenderLemmas

variable {α : Type}

theorem writtenSlots_append (xs ys : List (Call α)) :
    writtenSlots (xs ++ ys) = writtenSlots xs ++ writtenSlots ys := by
  induction xs with
  | nil => rfl
  | cons c xs ih => cases c <;> simp [writtenSlots, ih]

theorem adsrTriggers_append (xs ys : List (Call α)) :
    adsrTriggers (xs ++ ys) = adsrTriggers xs ++ adsrTriggers ys := by
  induction xs with
  | nil => rfl
  | cons c xs ih => cases c <;> simp [adsrTriggers, ih]

theorem filterCutoffs_append (xs ys : List (Call α)) :
    filterCutoffs (xs ++ ys) = filterCutoffs xs ++ filterCutoffs ys := by
  induction xs with
  | nil => rfl
  | cons c xs ih => cases c <;> simp [filterCutoffs, ih]

theorem pulseWidths_append (xs ys : List (Call α)) :
    pulseWidths (xs ++ ys) = pulseWidths xs ++ pulseWidths ys := by
  induction xs with
  | nil => rfl
  | cons c xs ih => cases c <;> simp [pulseWidths, ih]

theorem oscFrequencies_append (xs ys : List (Call α)) :
    oscFrequencies (xs ++ ys) = oscFrequencies xs ++ oscFrequencies ys := by
  induction xs with
  | nil => rfl
  | cons c xs ih => cases c <;> simp [oscFrequencies, ih]

variable [LinearOrderedField α]

theorem renderFrame_pulseWidths (m : MaxiLib α) (t : Int) (st : RenderState α) :
    pulseWidths (renderFrame m t st).trace =
      pulseWidths st.trace ++
        [pulseWidthOf st.synth (m.adsr st.synth.envelope_ 1 t).1] := by
  simp [renderFrame, pulseWidths_append, pulseWidths]

theorem renderFrame_oscFrequencies (m : MaxiLib α) (t : Int) (st : RenderState α) :
    oscFrequencies (renderFrame m t st).trace =
      oscFrequencies st.trace ++
        [pitchOf m st.synth (m.adsr st.synth.envelope_ 1 t).1] := by
  simp [renderFrame, oscFrequencies_append, oscFrequencies]

/-- The sample that a frame stores in its two slots is a multiple of the amplifier gain. -/
theorem renderFrame_out_sample (m : MaxiLib α) (t : Int) (st : RenderState α) :
    ∃ x env : α, (renderFrame m t st).out st.out_p = x * gainOf st.synth env t ∧
      (renderFrame m t st).out (st.out_p + 1) = x * gainOf st.synth env t := by
  refine ⟨(m.biquadPlay
      (st.synth.filter_.set
        (cutoffOf m st.synth (m.adsr st.synth.envelope_ 1 t).1) st.synth.resonance_ 2)
      ((m.oscPlay
        (st.synth.oscillator_.setPulseWidth
          (pulseWidthOf st.synth (m.adsr st.synth.envelope_ 1 t).1))
        (pitchOf m st.synth (m.adsr st.synth.envelope_ 1 t).1)).1 * st.synth.amp_)).1,
    (m.adsr st.synth.envelope_ 1 t).1, ?_, ?_⟩
  · simp [renderFrame, Function.update]
  · simp [renderFrame, Function.update]

theorem renderFrame_out_p (m : MaxiLib α) (t : Int) (st : RenderState α) :
    (renderFrame m t st).out_p = st.out_p + 2 := rfl

theorem renderFrame_iters (m : MaxiLib α) (t : Int) (st : RenderState α) :
    (renderFrame m t st).iters = st.iters + 1 := rfl

theorem renderFrame_writtenSlots (m : MaxiLib α) (t : Int) (st : RenderState α) :
    writtenSlots (renderFrame m t st).trace =
      writtenSlots st.trace ++ [st.out_p, st.out_p + 1] := by
  simp [renderFrame, writtenSlots_append, writtenSlots]

theorem renderFrame_adsrTriggers (m : MaxiLib α) (t : Int) (st : RenderState α) :
    adsrTriggers (renderFrame m t st).trace = adsrTriggers st.trace ++ [t] := by
  simp [renderFrame, adsrTriggers_append, adsrTriggers]

theorem renderFrame_filterCutoffs (m : MaxiLib α) (t : Int) (st : RenderState α) :
    filterCutoffs (renderFrame m t st).trace =
      filterCutoffs st.trace ++
        [cutoffOf m st.synth (m.adsr st.synth.envelope_ 1 t).1] := by
  simp [renderFrame, filterCutoffs_append, filterCutoffs]

theorem renderFrame_out_left (m : MaxiLib α) (t : Int) (st : RenderState α) :
    (renderFrame m t st).out st.out_p = (renderFrame m t st).out (st.out_p + 1) := by
  simp [renderFrame, Function.update]

theorem renderFrame_out_other (m : MaxiLib α) (t : Int) (st : RenderState α) (j : Nat)
    (h0 : j ≠ st.out_p) (h1 : j ≠ st.out_p + 1) :
    (renderFrame m t st).out j = st.out j := by
  simp [renderFrame, Function.update, h0, h1]

/-- The loop stops after exactly `k` iterations when `out_e` is `2 * k` slots ahead of
`out_p`, whatever fuel is left over. -/
theorem renderLoop_eq_iterate (m : MaxiLib α) (t : Int) (out_e : Nat) (k extra : Nat) :
    ∀ st : RenderState α, st.out_p + 2 * k = out_e →
      renderLoop m t out_e (k + extra) st = some ((renderFrame m t)^[k] st) := by
  induction k with
  | zero =>
    intro st h
    cases extra <;> simp [renderLoop, h.symm.symm] <;> omega
  | succ k ih =>
    intro st h
    have hne : st.out_p ≠ out_e := by omega
    have hfuel : k + 1 + extra = (k + extra) + 1 := by omega
    rw [hfuel, renderLoop, if_neg hne, Function.iterate_succ_apply]
    exact ih _ (by rw [renderFrame_out_p]; omega)

theorem iterate_out_p (m : MaxiLib α) (t : Int) (k : Nat) :
    ∀ st : RenderState α, ((renderFrame m t)^[k] st).out_p = st.out_p + 2 * k := by
  induction k with
  | zero => intro st; rfl
  | succ k ih =>
    intro st
    rw [Function.iterate_succ_apply, ih, renderFrame_out_p]
    omega

theorem iterate_iters (m : MaxiLib α) (t : Int) (k : Nat) :
    ∀ st : RenderState α, ((renderFrame m t)^[k] st).iters = st.iters + k := by
  induction k with
  | zero => intro st; rfl
  | succ k ih =>
    intro st
    rw [Function.iterate_succ_apply, ih, renderFrame_iters]
    omega

theorem iterate_writtenSlots (m : MaxiLib α) (t : Int) (k : Nat) :
    ∀ st : RenderState α, writtenSlots ((renderFrame m t)^[k] st).trace =
      writtenSlots st.trace ++ List.range' st.out_p (2 * k) := by
  induction k with
  | zero => intro st; simp
  | succ k ih =>
    intro st
    rw [Function.iterate_succ_apply, ih, renderFrame_writtenSlots, renderFrame_out_p]
    have h2 : 2 * (k + 1) = 2 * k + 1 + 1 := by omega
    rw [h2, List.range'_succ, List.range'_succ]
    simp [Nat.add_assoc]

theorem iterate_adsrTriggers (m : MaxiLib α) (t : Int) (k : Nat) :
    ∀ st : RenderState α, adsrTriggers ((renderFrame m t)^[k] st).trace =
      adsrTriggers st.trace ++ List.replicate k t := by
  induction k with
  | zero => intro st; simp
  | succ k ih =>
    intro st
    rw [Function.iterate_succ_apply, ih, renderFrame_adsrTriggers, List.replicate_succ]
    simp

/-- Frames only write at or after `out_p`. -/
theorem iterate_out_below (m : MaxiLib α) (t : Int) (k : Nat) :
    ∀ (st : RenderState α) (j : Nat), j < st.out_p →
      ((renderFrame m t)^[k] st).out j = st.out j := by
  induction k with
  | zero => intro st j _; rfl
  | succ k ih =>
    intro st j hj
    rw [Function.iterate_succ_apply, ih _ j (by rw [renderFrame_out_p]; omega)]
    exact renderFrame_out_other m t st j (by omega) (by omega)

/-- After `k` frames nothing is written at or after `out_p + 2 * k`. -/
theorem iterate_out_above (m : MaxiLib α) (t : Int) (k : Nat) :
    ∀ (st : RenderState α) (j : Nat), st.out_p + 2 * k ≤ j →
      ((renderFrame m t)^[k] st).out j = st.out j := by
  induction k with
  | zero => intro st j _; rfl
  | succ k ih =>
    intro st j hj
    rw [Function.iterate_succ_apply, ih _ j (by rw [renderFrame_out_p]; omega)]
    exact renderFrame_out_other m t st j (by omega) (by omega)

/-- After `k` frames the two slots of each frame hold the same sample. -/
theorem iterate_out_stereo (m : MaxiLib α) (t : Int) (k : Nat) :
    ∀ (st : RenderState α) (i : Nat), i < k →
      ((renderFrame m t)^[k] st).out (st.out_p + 2 * i) =
        ((renderFrame m t)^[k] st).out (st.out_p + 2 * i + 1) := by
  induction k with
  | zero => intro st i hi; omega
  | succ k ih =>
    intro st i hi
    rw [Function.iterate_succ_apply]
    cases i with
    | zero =>
      rw [iterate_out_below m t k _ (st.out_p + 2 * 0) (by rw [renderFrame_out_p]; omega),
        iterate_out_below m t k _ (st.out_p + 2 * 0 + 1) (by rw [renderFrame_out_p]; omega)]
      exact renderFrame_out_left m t st
    | succ i =>
      have h := ih (renderFrame m t st) i (by omega)
      rw [renderFrame_out_p] at h
      have e1 : st.out_p + 2 * (i + 1) = st.out_p + 2 + 2 * i := by omega
      rw [e1]
      exact h

/-- A frame leaves the gate count alone. -/
theorem iterate_gate (m : MaxiLib α) (t : Int) (k : Nat) :
    ∀ st : RenderState α, ((renderFrame m t)^[k] st).synth.gate_ = st.synth.gate_ := by
  induction k with
  | zero => intro st; rfl
  | succ k ih =>
    intro st
    rw [Function.iterate_succ_apply, ih]
    rfl

/-- Every cutoff that `k` frames pass to `filter_.set` is an earlier one or a value of
`cutoffOf`. -/
theorem iterate_filterCutoffs (m : MaxiLib α) (t : Int) (P : α → Prop)
    (hP : ∀ (s : Synth α) (env : α), P (cutoffOf m s env)) (k : Nat) :
    ∀ (st : RenderState α) (c : α), c ∈ filterCutoffs ((renderFrame m t)^[k] st).trace →
      c ∈ filterCutoffs st.trace ∨ P c := by
  induction k with
  | zero => intro st c hc; exact Or.inl hc
  | succ k ih =>
    intro st c hc
    rw [Function.iterate_succ_apply] at hc
    rcases ih _ c hc with h | h
    · rw [renderFrame_filterCutoffs, List.mem_append, List.mem_singleton] at h
      rcases h with h | h
      · exact Or.inl h
      · exact Or.inr (h ▸ hP _ _)
    · exact Or.inr h

theorem iterate_filterCutoffs_length (m : MaxiLib α) (t : Int) (k : Nat) :
    ∀ st : RenderState α, (filterCutoffs ((renderFrame m t)^[k] st).trace).length =
      (filterCutoffs st.trace).length + k := by
  induction k with
  | zero => intro st; rfl
  | succ k ih =>
    intro st
    rw [Function.iterate_succ_apply, ih, renderFrame_filterCutoffs]
    simp
    omega

/-- A frame only changes the three collaborators: whatever is read from the synth and is
left alone by one frame is left alone by `k` frames. -/
theorem iterate_synth_field {β : Type} (m : MaxiLib α) (t : Int) (g : Synth α → β)
    (hg : ∀ st : RenderState α, g (renderFrame m t st).synth = g st.synth) (k : Nat) :
    ∀ st : RenderState α, g ((renderFrame m t)^[k] st).synth = g st.synth := by
  induction k with
  | zero => intro st; rfl
  | succ k ih =>
    intro st
    rw [Function.iterate_succ_apply, ih, hg]

theorem iterate_pulseWidths_length (m : MaxiLib α) (t : Int) (k : Nat) :
    ∀ st : RenderState α, (pulseWidths ((renderFrame m t)^[k] st).trace).length =
      (pulseWidths st.trace).length + k := by
  induction k with
  | zero => intro st; rfl
  | succ k ih =>
    intro st
    rw [Function.iterate_succ_apply, ih, renderFrame_pulseWidths]
    simp
    omega

/-- With an envelope whose output stays in `[0, 1]`, every pulse width that `k` frames pass
to `setPulseWidth` is an earlier one or `0.5f + egPwm_ * env` for some `env` in `[0, 1]`. -/
theorem iterate_pulseWidths (m : MaxiLib α) (t : Int)
    (hadsr : ∀ (e : maxiEnv α) (a : α) (tr : Int),
      0 ≤ (m.adsr e a tr).1 ∧ (m.adsr e a tr).1 ≤ 1) (k : Nat) :
    ∀ (st : RenderState α) (w : α), w ∈ pulseWidths ((renderFrame m t)^[k] st).trace →
      w ∈ pulseWidths st.trace ∨
        ∃ env : α, 0 ≤ env ∧ env ≤ 1 ∧ w = pulseWidthOf st.synth env := by
  induction k with
  | zero => intro st w hw; exact Or.inl hw
  | succ k ih =>
    intro st w hw
    rw [Function.iterate_succ_apply] at hw
    rcases ih _ w hw with h | ⟨env, h0, h1, h⟩
    · rw [renderFrame_pulseWidths, List.mem_append, List.mem_singleton] at h
      rcases h with h | h
      · exact Or.inl h
      · exact Or.inr ⟨_, (hadsr _ _ _).1, (hadsr _ _ _).2, h⟩
    · exact Or.inr ⟨env, h0, h1, h⟩

/-- When the amplifier gain is 0 for the trigger of the call, whatever the envelope level,
every slot that `k` frames write holds 0. -/
theorem iterate_out_zero (m : MaxiLib α) (t : Int) (k : Nat) :
    ∀ st : RenderState α, (∀ env : α, gainOf st.synth env t = 0) →
      ∀ j : Nat, st.out_p ≤ j → j < st.out_p + 2 * k →
        ((renderFrame m t)^[k] st).out j = 0 := by
  induction k with
  | zero => intro st _ j h1 h2; omega
  | succ k ih =>
    intro st hz j h1 h2
    rw [Function.iterate_succ_apply]
    by_cases hj : j < st.out_p + 2
    · rw [iterate_out_below m t k _ j (by rw [renderFrame_out_p]; exact hj)]
      obtain ⟨x, env, hl, hr⟩ := renderFrame_out_sample m t st
      have hcase : j = st.out_p ∨ j = st.out_p + 1 := by omega
      rcases hcase with h | h
      · rw [h, hl, hz, mul_zero]
      · rw [h, hr, hz, mul_zero]
    · exact ih (renderFrame m t st) (fun env => hz env) j
        (by rw [renderFrame_out_p]; omega) (by rw [renderFrame_out_p]; omega)

/-- Closed form of `Render`: with enough fuel it returns after exactly `n` frames. -/
theorem Render_eq_iterate (m : MaxiLib α) (s : Synth α) (out : Nat → α) (n extra : Nat) :
    Render m s out n (n + extra) =
      some ((renderFrame m (triggerOf s))^[n]
        { synth := s, out := out, out_p := 0, trace := [], iters := 0 }) := by
  unfold Render
  apply renderLoop_eq_iterate
  simp [Nat.shiftLeft_eq]
  omega

end RenderLemmas

/-! ## Lemmas on `note2freq` over the reals -/

section RealLemmas

theorem note2freq_rpow_pos (x : ℝ) : 0 < note2freq Real.rpow x := by
  unfold note2freq
  have h : (0 : ℝ) < Real.rpow 2 ((x - 9) / 12) := Real.rpow_pos_of_pos (by norm_num) _
  positivity

theorem note2freq_rpow_mono {x y : ℝ} (h : x ≤ y) :
    note2freq Real.rpow x ≤ note2freq Real.rpow y := by
  unfold note2freq
  have hxy : (x - 9) / 12 ≤ (y - 9) / 12 := by linarith
  have hp : Real.rpow 2 ((x - 9) / 12) ≤ Real.rpow 2 ((y - 9) / 12) :=
    Real.rpow_le_rpow_of_exponent_le (by norm_num) hxy
  have hc : (0 : ℝ) ≤ 440 / 32 := by norm_num
  exact mul_le_mul_of_nonneg_left hp hc

theorem note2freq_rpow_zero_le : note2freq Real.rpow 0 ≤ 440 / 32 := by
  unfold note2freq
  have hp : Real.rpow 2 (((0 : ℝ) - 9) / 12) ≤ Real.rpow 2 0 :=
    Real.rpow_le_rpow_of_exponent_le (by norm_num) (by norm_num)
  have h1 : Real.rpow 2 0 = 1 := Real.rpow_zero 2
  rw [h1] at hp
  have hc : (0 : ℝ) ≤ 440 / 32 := by norm_num
  calc (440 / 32 : ℝ) * Real.rpow 2 (((0 : ℝ) - 9) / 12) ≤ 440 / 32 * 1 :=
        mul_le_mul_of_nonneg_left hp hc
    _ = 440 / 32 := by ring

/-- The cutoff that `Render` computes, with the real power function for `powf`, lies
between `note2freq(0)` and 23999. -/
theorem cutoffOf_rpow_bounds (m : MaxiLib ℝ) (s : Synth ℝ) (env : ℝ) :
    note2freq Real.rpow 0 ≤ cutoffOf { m with powf := Real.rpow } s env ∧
      cutoffOf { m with powf := Real.rpow } s env ≤ 23999 := by
  unfold cutoffOf
  refine ⟨le_min ?_ ?_, min_le_left _ _⟩
  · have := note2freq_rpow_zero_le
    linarith
  · exact note2freq_rpow_mono (le_max_left _ _)

theorem rpow_two_eleven : Real.rpow 2 11 = 2048 := by
  have h : Real.rpow 2 11 = (2 : ℝ) ^ ((11 : ℕ) : ℝ) := by norm_num
  rw [h, Real.rpow_natCast]
  norm_num

/-- The frequency of note 151 is above 28 kHz. -/
theorem note2freq_rpow_151 : 28160 ≤ note2freq Real.rpow 151 := by
  unfold note2freq
  have hp : Real.rpow 2 11 ≤ Real.rpow 2 (((151 : ℝ) - 9) / 12) :=
    Real.rpow_le_rpow_of_exponent_le (by norm_num) (by norm_num)
  rw [rpow_two_eleven] at hp
  linarith

end RealLemmas

/-! ## Lemmas on binary numbers -/

section BinaryLemmas

theorem binaryValue_le (x : Nat × Nat) (a b : Nat) (hb : 0 < b)
    (h : x.1 * b ≤ a * 2 ^ x.2) : binaryValue x ≤ (a : ℚ) / (b : ℚ) := by
  unfold binaryValue
  rw [div_le_div_iff₀ (by positivity) (by exact_mod_cast hb)]
  exact_mod_cast h

theorem le_binaryValue (x : Nat × Nat) (a b : Nat) (hb : 0 < b)
    (h : a * 2 ^ x.2 ≤ x.1 * b) : (a : ℚ) / (b : ℚ) ≤ binaryValue x := by
  unfold binaryValue
  rw [div_le_div_iff₀ (by exact_mod_cast hb) (by positivity)]
  exact_mod_cast h

set_option maxRecDepth 100000 in
/-- In `float` arithmetic, at envelope level 1 and for every value from 1 to 100, the
pulse width lies between `1 / 2` and `0.99000001`. -/
theorem pulseWidthFloat_bounds : ∀ u, u ≤ 99 →
    2 ^ (pulseWidthFloat (u + 1) (1, 0)).2 ≤ 2 * (pulseWidthFloat (u + 1) (1, 0)).1 ∧
      (pulseWidthFloat (u + 1) (1, 0)).1 * 100000000 ≤
        99000001 * 2 ^ (pulseWidthFloat (u + 1) (1, 0)).2 := by
  decide

end BinaryLemmas

/-! ## The gate counter, the parameter store and the lifecycle -/

section Claims

variable {α : Type}

/-- C1 (as stated, refuted): after a fresh `Reset` the sequence `NoteOff(60)`,
`NoteOn(60, 100)` has one call of each kind, so `max(0, #NoteOn - #NoteOff) = 0`, but it
leaves the gate count at 1: the unmatched `NoteOff` was ignored at count 0.  Besides, a
sequence of `2 ^ 32` calls of `NoteOn` leaves the `uint32_t` gate count at 0. -/
theorem C1_gate_counter_law_fails :
    (Reset demoSynth).gate_ = 0 ∧
      ((runEvents (Reset demoSynth)
          [NoteEvent.noteOff 60, NoteEvent.noteOn 60 100]).gate_ : Int) = 1 ∧
      max 0 ((countOn [NoteEvent.noteOff 60, NoteEvent.noteOn 60 100] : Int) -
          (countOff [NoteEvent.noteOff 60, NoteEvent.noteOn 60 100] : Int)) = 0 ∧
      ((runEvents (Reset demoSynth)
          [NoteEvent.noteOff 60, NoteEvent.noteOn 60 100]).gate_ : Int) ≠
        max 0 ((countOn [NoteEvent.noteOff 60, NoteEvent.noteOn 60 100] : Int) -
          (countOff [NoteEvent.noteOff 60, NoteEvent.noteOn 60 100] : Int)) ∧
      ((runEvents (Reset demoSynth)
          (List.replicate 4294967296 (NoteEvent.noteOn 60 100))).gate_ : Int) = 0 ∧
      max 0 ((countOn (List.replicate 4294967296 (NoteEvent.noteOn 60 100)) : Int) -
          (countOff (List.replicate 4294967296 (NoteEvent.noteOn 60 100)) : Int)) =
        4294967296 := by
  refine ⟨rfl, rfl, by decide, by decide, ?_, ?_⟩
  · rw [gate_runEvents_replicate_noteOn _ _ _ _ (by decide)]
    show (((0 + 4294967296) % 4294967296 : Nat) : Int) = 0
    norm_num
  · rw [countOff_replicate_noteOn, countOn_replicate_noteOn]
    norm_num

/-- C1 (amended): starting from a fresh `Reset`, for every sequence of `NoteOn` and
`NoteOff` calls in which no run of consecutive calls has `2 ^ 32` or more `NoteOn` than
`NoteOff` calls (so that the `uint32_t` counter never wraps), the gate count after the
sequence is the balance `#NoteOn - #NoteOff` of the sequence minus the least balance of its
initial segments (the empty one and the whole sequence included): it is at least every such
difference and it is one of them.  Hence it equals `max(0, #NoteOn - #NoteOff)` if and only
if no initial segment has a balance below `min(0, #NoteOn - #NoteOff)`; in particular it
does whenever no initial segment has more `NoteOff` than `NoteOn` calls. -/
theorem C1_gate_counter_law_exact [LinearOrderedField α] (s : Synth α)
    (evs : List NoteEvent)
    (h : ∀ k, k ≤ evs.length → ∀ j, j ≤ k →
      balance (evs.take k) - balance (evs.take j) < 4294967296) :
    (∀ k, k ≤ evs.length →
        balance evs - balance (evs.take k) ≤ ((runEvents (Reset s) evs).gate_ : Int)) ∧
      (∃ k, k ≤ evs.length ∧
        ((runEvents (Reset s) evs).gate_ : Int) = balance evs - balance (evs.take k)) ∧
      (((runEvents (Reset s) evs).gate_ : Int) =
          max 0 ((countOn evs : Int) - (countOff evs : Int)) ↔
        ∀ k, k ≤ evs.length →
          min 0 ((countOn evs : Int) - (countOff evs : Int)) ≤ balance (evs.take k)) ∧
      ((∀ k, k ≤ evs.length → countOff (evs.take k) ≤ countOn (evs.take k)) →
        ((runEvents (Reset s) evs).gate_ : Int) =
          max 0 ((countOn evs : Int) - (countOff evs : Int))) := by
  obtain ⟨ha, j, hj, hb⟩ := gate_runEvents_exact (Reset s) rfl evs h
  have h0 := ha 0 (Nat.zero_le _)
  have hl := ha evs.length le_rfl
  rw [List.take_zero, balance_nil] at h0
  rw [List.take_length] at hl
  have hbal : balance evs = (countOn evs : Int) - (countOff evs : Int) := rfl
  have hiff : ((runEvents (Reset s) evs).gate_ : Int) =
        max 0 ((countOn evs : Int) - (countOff evs : Int)) ↔
      ∀ k, k ≤ evs.length →
        min 0 ((countOn evs : Int) - (countOff evs : Int)) ≤ balance (evs.take k) := by
    constructor
    · intro hg k hk
      have := ha k hk
      omega
    · intro hmin
      have := hmin j hj
      omega
  refine ⟨ha, ⟨j, hj, hb⟩, hiff, ?_⟩
  intro hnest
  rw [hiff]
  intro k hk
  have := hnest k hk
  unfold balance
  omega

/-- Witness of C1 (amended): `NoteOn`, `NoteOff`, `NoteOff`.  The second `NoteOff` arrives
at count 0 and is ignored; the balance is `-1`, no initial segment has a lower balance, and
the gate count is `0 = max(0, -1)`. -/
theorem C1_gate_counter_law_exact_witness :
    (∀ k, k ≤ [NoteEvent.noteOn 60 100, NoteEvent.noteOff 60, NoteEvent.noteOff 60].length →
      ∀ j, j ≤ k →
        balance ([NoteEvent.noteOn 60 100, NoteEvent.noteOff 60, NoteEvent.noteOff 60].take k) -
            balance
              ([NoteEvent.noteOn 60 100, NoteEvent.noteOff 60, NoteEvent.noteOff 60].take j) <
          4294967296) ∧
      balance [NoteEvent.noteOn 60 100, NoteEvent.noteOff 60, NoteEvent.noteOff 60] = -1 ∧
      ((runEvents (Reset demoSynth)
          [NoteEvent.noteOn 60 100, NoteEvent.noteOff 60, NoteEvent.noteOff 60]).gate_ : Int) =
        max 0 ((countOn
            [NoteEvent.noteOn 60 100, NoteEvent.noteOff 60, NoteEvent.noteOff 60] : Int) -
          (countOff
            [NoteEvent.noteOn 60 100, NoteEvent.noteOff 60, NoteEvent.noteOff 60] : Int)) := by
  have hyp : ∀ k,
      k ≤ [NoteEvent.noteOn 60 100, NoteEvent.noteOff 60, NoteEvent.noteOff 60].length →
      ∀ j, j ≤ k →
        balance ([NoteEvent.noteOn 60 100, NoteEvent.noteOff 60, NoteEvent.noteOff 60].take k) -
            balance
              ([NoteEvent.noteOn 60 100, NoteEvent.noteOff 60, NoteEvent.noteOff 60].take j) <
          4294967296 := by
    decide
  exact ⟨hyp, by decide,
    (C1_gate_counter_law_exact demoSynth _ hyp).2.2.1.mpr (by decide)⟩

/-- C2: for every index `i < 24` and every value `v`, `setParameter(i, v)` succeeds and
`getParameterValue(i)` called right after it returns exactly `v`, whatever derived state
the `switch` recomputed. -/
theorem C2_parameter_round_trip [LinearOrderedField α] (m : MaxiLib α) (s : Synth α)
    (i : Nat) (v : Int) (hi : i < 24) :
    (setParameter m s i v).bind (fun s1 => getParameterValue s1 i) = some v := by
  simp [setParameter, getParameterValue, hi, setDerived_p_]

/-- Witness of C2: the Attack parameter (index 4) with a value outside its declared range
`0..1000`. -/
theorem C2_parameter_round_trip_witness :
    4 < 24 ∧
      (setParameter demoLib demoSynth 4 (-2147483648)).bind
        (fun s1 => getParameterValue s1 4) = some (-2147483648) :=
  ⟨by decide, C2_parameter_round_trip demoLib demoSynth 4 (-2147483648) (by decide)⟩

/-- C3: `Init` returns the samplerate error iff `samplerate != 48000` (whatever the channel
count), the geometry error iff `samplerate == 48000` and `output_channels != 2`, and the
no-error code iff `samplerate == 48000` and `output_channels == 2`; with samplerate 44100
it returns the samplerate error. -/
theorem C3_Init_classifies [LinearOrderedField α] (s : Synth α) (desc : unit_runtime_desc_t) :
    ((Init s desc).1 = UnitErr.k_unit_err_samplerate ↔ desc.samplerate ≠ 48000) ∧
      ((Init s desc).1 = UnitErr.k_unit_err_geometry ↔
        desc.samplerate = 48000 ∧ desc.output_channels ≠ 2) ∧
      ((Init s desc).1 = UnitErr.k_unit_err_none ↔
        desc.samplerate = 48000 ∧ desc.output_channels = 2) ∧
      (Init s { samplerate := 44100, output_channels := desc.output_channels }).1 =
        UnitErr.k_unit_err_samplerate := by
  unfold Init
  refine ⟨?_, ?_, ?_, ?_⟩ <;> split_ifs <;> simp_all

/-- C4: `NoteOff` ignores its note argument; it leaves the gate count at 0 when it was 0 and
otherwise lowers it by exactly 1; every other member (base note, amplitude scalar, parameter
store, cutoff and resonance values, modulation scalars, collaborators) is unchanged. -/
theorem C4_NoteOff_saturating_decrement (s : Synth α) (note : Nat) :
    (if s.gate_ = 0 then (NoteOff s note).gate_ = 0
      else (NoteOff s note).gate_ + 1 = s.gate_) ∧
      NoteOff s note = { s with gate_ := s.gate_ - 1 } ∧
      NoteOff s note = NoteOff s 0 ∧
      (NoteOff s note).note_ = s.note_ ∧
      (NoteOff s note).amp_ = s.amp_ ∧
      (NoteOff s note).p_ = s.p_ ∧
      (NoteOff s note).egAmp_ = s.egAmp_ ∧
      (NoteOff s note).egAmpRev_ = s.egAmpRev_ ∧
      (NoteOff s note).egPitch_ = s.egPitch_ ∧
      (NoteOff s note).egCutoff_ = s.egCutoff_ ∧
      (NoteOff s note).egPwm_ = s.egPwm_ := by
  have hrec : NoteOff s note = { s with gate_ := s.gate_ - 1 } := by
    unfold NoteOff GateOff
    split
    · rfl
    · have h0 : s.gate_ = 0 := by omega
      cases s
      simp_all
  refine ⟨?_, hrec, rfl, ?_, ?_, ?_, ?_, ?_, ?_, ?_, ?_⟩
  · rw [gate_NoteOff]
    split_ifs <;> omega
  all_goals rw [hrec]

/-- C5 (as stated, refuted): `2 ^ 32 - 1` calls of `NoteOn` after a fresh `Reset` bring the
gate count to `4294967295`; the next `NoteOn` does not raise it by 1 but wraps the
`uint32_t` counter to 0. -/
theorem C5_NoteOn_gate_increment_fails :
    (runEvents (Reset demoSynth)
        (List.replicate 4294967295 (NoteEvent.noteOn 60 100))).gate_ = 4294967295 ∧
      (NoteOn (runEvents (Reset demoSynth)
        (List.replicate 4294967295 (NoteEvent.noteOn 60 100))) 60 100).gate_ = 0 ∧
      (NoteOn (runEvents (Reset demoSynth)
        (List.replicate 4294967295 (NoteEvent.noteOn 60 100))) 60 100).gate_ ≠
        (runEvents (Reset demoSynth)
          (List.replicate 4294967295 (NoteEvent.noteOn 60 100))).gate_ + 1 := by
  have h : (runEvents (Reset demoSynth)
      (List.replicate 4294967295 (NoteEvent.noteOn 60 100))).gate_ = 4294967295 := by
    rw [gate_runEvents_replicate_noteOn _ _ _ _ (by decide)]
    show (0 + 4294967295) % 4294967296 = 4294967295
    norm_num
  refine ⟨h, ?_, ?_⟩
  · rw [gate_NoteOn, h]
  · rw [gate_NoteOn, h]
    norm_num

/-- C5 (amended): `NoteOn(note, velocity)` sets the base note to `note`, sets the amplitude
scalar to `velocity / 127` and sets the gate count to its successor modulo `2 ^ 32`, so it
raises the count by exactly 1 whenever the count is below `2 ^ 32 - 1` (also when velocity
is 0); the amplitude scalar equals 1 exactly at velocity 127 and lies in `[0, 1]` for every
velocity in `0..127`. -/
theorem C5_NoteOn_effect [LinearOrderedField α] (s : Synth α) (note velocity : Nat) :
    (NoteOn s note velocity).note_ = (note : Int) ∧
      (NoteOn s note velocity).amp_ = (velocity : α) / 127 ∧
      (NoteOn s note velocity).gate_ = (s.gate_ + 1) % 4294967296 ∧
      (s.gate_ < 4294967295 → (NoteOn s note velocity).gate_ = s.gate_ + 1) ∧
      (s.gate_ < 4294967295 → (NoteOn s note 0).gate_ = s.gate_ + 1) ∧
      ((NoteOn s note velocity).amp_ = 1 ↔ velocity = 127) ∧
      (velocity ≤ 127 →
        0 ≤ (NoteOn s note velocity).amp_ ∧ (NoteOn s note velocity).amp_ ≤ 1) := by
  have hamp : (NoteOn s note velocity).amp_ = (velocity : α) / 127 := by
    show 1 / 127 * (velocity : α) = (velocity : α) / 127
    ring
  refine ⟨rfl, hamp, rfl, ?_, ?_, ?_, ?_⟩
  · intro hg
    rw [gate_NoteOn]
    omega
  · intro hg
    rw [gate_NoteOn]
    omega
  · rw [hamp, div_eq_one_iff_eq (by norm_num : (127 : α) ≠ 0)]
    exact_mod_cast Iff.rfl
  · intro hv
    rw [hamp]
    have h127 : (velocity : α) ≤ 127 := by exact_mod_cast hv
    have h0 : (0 : α) ≤ (velocity : α) := Nat.cast_nonneg velocity
    constructor
    · positivity
    · rw [div_le_one (by norm_num : (0 : α) < 127)]
      exact h127

/-- Witness of C5 (amended): from gate count 0, `NoteOn(60, 127)` gives gate count 1 and
amplitude scalar 1, and `NoteOn(60, 0)` gives gate count 1 too. -/
theorem C5_NoteOn_effect_witness :
    (demoSynth.gate_ < 4294967295 ∧ 127 ≤ 127) ∧
      (NoteOn demoSynth 60 127).note_ = 60 ∧
      (NoteOn demoSynth 60 127).gate_ = 1 ∧
      (NoteOn demoSynth 60 0).gate_ = 1 ∧
      (NoteOn demoSynth 60 127).amp_ = 1 ∧
      (NoteOn demoSynth 60 127).amp_ ≤ 1 := by
  have hg : demoSynth.gate_ < 4294967295 := by decide
  have h := C5_NoteOn_effect demoSynth 60 127
  exact ⟨⟨hg, le_rfl⟩, h.1, h.2.2.2.1 hg, h.2.2.2.2.1 hg, h.2.2.2.2.2.1.mpr rfl,
    (h.2.2.2.2.2.2 le_rfl).2⟩

/-! ## Render -/

/-- C6: for every frame count `n` and arbitrary oscillator, envelope and filter functions,
`Render` returns (given at least `n` units of fuel) after exactly `n` loop iterations; its
stores write exactly the slots `0 .. 2n-1`, in order and once each; every slot from `2n` on
keeps its content; for every frame `k < n` the slots `2k` and `2k+1` hold the same sample;
and with `n = 0` it returns at once with the buffer, the synth and the call record
untouched. -/
theorem C6_Render_output_shape [LinearOrderedField α] (m : MaxiLib α) (s : Synth α)
    (out : Nat → α) (n extra : Nat) :
    (∃ st, Render m s out n (n + extra) = some st ∧
      st.iters = n ∧
      st.out_p = 2 * n ∧
      writtenSlots st.trace = List.range (2 * n) ∧
      (∀ j, 2 * n ≤ j → st.out j = out j) ∧
      (∀ k, k < n → st.out (2 * k) = st.out (2 * k + 1))) ∧
      Render m s out 0 extra =
        some { synth := s, out := out, out_p := 0, trace := [], iters := 0 } := by
  refine ⟨⟨_, Render_eq_iterate m s out n extra, ?_, ?_, ?_, ?_, ?_⟩, ?_⟩
  · rw [iterate_iters]
    simp
  · rw [iterate_out_p]
    simp
  · rw [iterate_writtenSlots]
    simp [writtenSlots, List.range_eq_range']
  · intro j hj
    rw [iterate_out_above m _ n _ j (by simpa using hj)]
  · intro k hk
    have h := iterate_out_stereo m (triggerOf s) n
      { synth := s, out := out, out_p := 0, trace := [], iters := 0 } k hk
    simpa using h
  · have h := Render_eq_iterate m s out 0 extra
    simpa using h

/-- C7 (as stated, refuted): after a fresh `Reset`, the sequence of `2 ^ 32` calls of
`NoteOn` has no initial segment with more `NoteOff` than `NoteOn` calls and leaves every
`NoteOn` unmatched, yet the `uint32_t` gate count has wrapped to 0 and the trigger of the
next `Render` is 0. -/
theorem C7_trigger_wraps :
    (∀ k, k ≤ (List.replicate 4294967296 (NoteEvent.noteOn 60 100)).length →
      countOff ((List.replicate 4294967296 (NoteEvent.noteOn 60 100)).take k) ≤
        countOn ((List.replicate 4294967296 (NoteEvent.noteOn 60 100)).take k)) ∧
      countOff (List.replicate 4294967296 (NoteEvent.noteOn 60 100)) <
        countOn (List.replicate 4294967296 (NoteEvent.noteOn 60 100)) ∧
      (runEvents (Reset demoSynth)
        (List.replicate 4294967296 (NoteEvent.noteOn 60 100))).gate_ = 0 ∧
      triggerOf (runEvents (Reset demoSynth)
        (List.replicate 4294967296 (NoteEvent.noteOn 60 100))) = 0 := by
  have hg : (runEvents (Reset demoSynth)
      (List.replicate 4294967296 (NoteEvent.noteOn 60 100))).gate_ = 0 := by
    rw [gate_runEvents_replicate_noteOn _ _ _ _ (by decide)]
    show (0 + 4294967296) % 4294967296 = 0
    norm_num
  refine ⟨?_, ?_, hg, ?_⟩
  · intro k _
    rw [List.take_replicate, countOff_replicate_noteOn]
    exact Nat.zero_le _
  · rw [countOff_replicate_noteOn, countOn_replicate_noteOn]
    norm_num
  · unfold triggerOf
    rw [hg]
    rfl

/-- C7 (amended): every frame of a `Render` call runs with the trigger computed at entry,
1 if the gate count is greater than 0 and 0 otherwise, and passes it to `adsr`.  After a
fresh `Reset` and a sequence of `NoteOn`/`NoteOff` calls in which no initial segment has
more `NoteOff` than `NoteOn` calls or `2 ^ 32` or more unmatched `NoteOn` calls, that trigger
is 1 exactly when some `NoteOn` is still unmatched and 0 exactly when every `NoteOn` has
been matched. -/
theorem C7_trigger_derivation [LinearOrderedField α] (m : MaxiLib α) (s : Synth α)
    (out : Nat → α) (n extra : Nat) (evs : List NoteEvent)
    (h : ∀ k, k ≤ evs.length →
      countOff (evs.take k) ≤ countOn (evs.take k) ∧
        countOn (evs.take k) - countOff (evs.take k) < 4294967296) :
    Render m s out n (n + extra) =
        some ((renderFrame m (if 0 < s.gate_ then 1 else 0))^[n]
          { synth := s, out := out, out_p := 0, trace := [], iters := 0 }) ∧
      (∃ st, Render m s out n (n + extra) = some st ∧
        adsrTriggers st.trace = List.replicate n (if 0 < s.gate_ then 1 else 0)) ∧
      (triggerOf (runEvents (Reset s) evs) = 1 ↔ countOff evs < countOn evs) ∧
      (triggerOf (runEvents (Reset s) evs) = 0 ↔ countOn evs = countOff evs) ∧
      (∃ st, Render m (runEvents (Reset s) evs) out n (n + extra) = some st ∧
        adsrTriggers st.trace =
          List.replicate n (if countOff evs < countOn evs then 1 else 0)) := by
  have hn : Nested (Reset s).gate_ evs := by
    intro k hk
    have := h k hk
    show countOff (evs.take k) ≤ 0 + countOn (evs.take k) ∧
      0 + countOn (evs.take k) - countOff (evs.take k) < 4294967296
    omega
  have hg := gate_runEvents_of_nested (Reset s) evs hn
  have h0 : (Reset s).gate_ = 0 := rfl
  rw [h0] at hg
  have hle := (h evs.length le_rfl).1
  rw [List.take_length] at hle
  have htrig : triggerOf (runEvents (Reset s) evs) =
      if countOff evs < countOn evs then 1 else 0 := by
    unfold triggerOf
    by_cases hc : countOff evs < countOn evs
    · rw [if_pos hc, if_pos (by omega)]
    · rw [if_neg hc, if_neg (by omega)]
  refine ⟨Render_eq_iterate m s out n extra, ⟨_, Render_eq_iterate m s out n extra, ?_⟩,
    ?_, ?_, ⟨_, Render_eq_iterate m _ out n extra, ?_⟩⟩
  · rw [iterate_adsrTriggers]
    simp [adsrTriggers, triggerOf]
  · rw [htrig]
    split_ifs with hc <;> simp [hc]
  · rw [htrig]
    split_ifs with hc
    · simp
      omega
    · simp
      omega
  · rw [iterate_adsrTriggers, htrig]
    simp [adsrTriggers]

/-- Witness of C7 (amended): two overlapping notes; the trigger stays 1 after the first
`NoteOff` and is 0 after the second. -/
theorem C7_trigger_derivation_witness :
    (∀ k, k ≤ [NoteEvent.noteOn 60 100, NoteEvent.noteOn 64 90, NoteEvent.noteOff 60,
        NoteEvent.noteOff 64].length →
      countOff ([NoteEvent.noteOn 60 100, NoteEvent.noteOn 64 90, NoteEvent.noteOff 60,
          NoteEvent.noteOff 64].take k) ≤
        countOn ([NoteEvent.noteOn 60 100, NoteEvent.noteOn 64 90, NoteEvent.noteOff 60,
          NoteEvent.noteOff 64].take k) ∧
      countOn ([NoteEvent.noteOn 60 100, NoteEvent.noteOn 64 90, NoteEvent.noteOff 60,
          NoteEvent.noteOff 64].take k) -
        countOff ([NoteEvent.noteOn 60 100, NoteEvent.noteOn 64 90, NoteEvent.noteOff 60,
          NoteEvent.noteOff 64].take k) < 4294967296) ∧
      triggerOf (runEvents (Reset demoSynth)
        [NoteEvent.noteOn 60 100, NoteEvent.noteOn 64 90, NoteEvent.noteOff 60]) = 1 ∧
      (triggerOf (runEvents (Reset demoSynth)
        [NoteEvent.noteOn 60 100, NoteEvent.noteOn 64 90, NoteEvent.noteOff 60,
          NoteEvent.noteOff 64]) = 0 ↔
        countOn [NoteEvent.noteOn 60 100, NoteEvent.noteOn 64 90, NoteEvent.noteOff 60,
          NoteEvent.noteOff 64] =
        countOff [NoteEvent.noteOn 60 100, NoteEvent.noteOn 64 90, NoteEvent.noteOff 60,
          NoteEvent.noteOff 64]) := by
  have hyp : ∀ k, k ≤ [NoteEvent.noteOn 60 100, NoteEvent.noteOn 64 90, NoteEvent.noteOff 60,
        NoteEvent.noteOff 64].length →
      countOff ([NoteEvent.noteOn 60 100, NoteEvent.noteOn 64 90, NoteEvent.noteOff 60,
          NoteEvent.noteOff 64].take k) ≤
        countOn ([NoteEvent.noteOn 60 100, NoteEvent.noteOn 64 90, NoteEvent.noteOff 60,
          NoteEvent.noteOff 64].take k) ∧
      countOn ([NoteEvent.noteOn 60 100, NoteEvent.noteOn 64 90, NoteEvent.noteOff 60,
          NoteEvent.noteOff 64].take k) -
        countOff ([NoteEvent.noteOn 60 100, NoteEvent.noteOn 64 90, NoteEvent.noteOff 60,
          NoteEvent.noteOff 64].take k) < 4294967296 := by
    decide
  exact ⟨hyp, rfl,
    (C7_trigger_derivation demoLib demoSynth (fun _ => 0) 2 0 _ hyp).2.2.2.1⟩

/-! ## Parameter mappings -/

/-- C8: for every value `v`, `setParameter(Waveform, v)` succeeds and selects the rectangle
when `v = 1`, the triangle when `v = 2` and the sawtooth for every other `v`; nothing else
of the oscillator changes. -/
theorem C8_waveform_selection_total [LinearOrderedField α] (m : MaxiLib α) (s : Synth α)
    (v : Int) :
    (setParameter m s Params.Waveform.toNat v).map (fun s1 => s1.oscillator_) =
        some (s.oscillator_.setWaveform
          (if v = 1 then Waveform.RECTANGLE
            else if v = 2 then Waveform.TRIANGLE else Waveform.SAWTOOTH)) ∧
      (setParameter m s Params.Waveform.toNat v).map (fun s1 => s1.oscillator_.waveform) =
        some (if v = 1 then Waveform.RECTANGLE
          else if v = 2 then Waveform.TRIANGLE else Waveform.SAWTOOTH) ∧
      (setParameter m s 1 1).map (fun s1 => s1.oscillator_.waveform) =
        some Waveform.RECTANGLE ∧
      (setParameter m s 1 2).map (fun s1 => s1.oscillator_.waveform) =
        some Waveform.TRIANGLE ∧
      (setParameter m s 1 0).map (fun s1 => s1.oscillator_.waveform) =
        some Waveform.SAWTOOTH ∧
      (setParameter m s 1 (-1)).map (fun s1 => s1.oscillator_.waveform) =
        some Waveform.SAWTOOTH ∧
      (setParameter m s 1 3).map (fun s1 => s1.oscillator_.waveform) =
        some Waveform.SAWTOOTH := by
  have key : ∀ w : Int, (setParameter m s 1 w).map (fun s1 => s1.oscillator_) =
      some (s.oscillator_.setWaveform
        (if w = 1 then Waveform.RECTANGLE
          else if w = 2 then Waveform.TRIANGLE else Waveform.SAWTOOTH)) := by
    intro w
    simp only [setParameter, setDerived, Params.ofNat?, show (1 : Nat) < 24 by decide,
      dite_true, Option.map_some']
    by_cases h2 : w = 2
    · subst h2
      simp
    · by_cases h1 : w = 1
      · subst h1
        simp
      · simp [h1, h2]
  have key2 : ∀ w : Int, (setParameter m s 1 w).map (fun s1 => s1.oscillator_.waveform) =
      some (if w = 1 then Waveform.RECTANGLE
        else if w = 2 then Waveform.TRIANGLE else Waveform.SAWTOOTH) := by
    intro w
    have h := congrArg (Option.map (fun o : maxiPolyBLEP α => o.waveform)) (key w)
    simpa [Option.map_map, Function.comp_def, maxiPolyBLEP.setWaveform] using h
  refine ⟨key v, key2 v, ?_, ?_, ?_, ?_, ?_⟩
  · simpa using key2 1
  · simpa using key2 2
  · simpa using key2 0
  · simpa using key2 (-1)
  · simpa using key2 3

/-- C9: after `setParameter(EnvAmpInt, v)` the amplifier scalars are `egAmp = v / 100` and
`egAmpRev = 1 - egAmp`, so they add up to 1; the gain `egAmp * env + egAmpRev * trigger`
that `Render` uses equals `trigger` for every `env` when `v = 0` and equals `env` for every
`trigger` when `v = 100`. -/
theorem C9_amplitude_crossfade [LinearOrderedField α] (m : MaxiLib α) (s : Synth α)
    (v : Int) :
    (∃ s1, setParameter m s Params.EnvAmpInt.toNat v = some s1 ∧
      s1.egAmp_ = (v : α) / 100 ∧
      s1.egAmpRev_ = 1 - s1.egAmp_ ∧
      s1.egAmp_ + s1.egAmpRev_ = 1 ∧
      ∀ (env : α) (trigger : Int), gainOf s1 env trigger =
        (v : α) / 100 * env + (1 - (v : α) / 100) * (trigger : α)) ∧
      (∃ s0, setParameter m s Params.EnvAmpInt.toNat 0 = some s0 ∧
        ∀ (env : α) (trigger : Int), gainOf s0 env trigger = (trigger : α)) ∧
      (∃ s100, setParameter m s Params.EnvAmpInt.toNat 100 = some s100 ∧
        ∀ (env : α) (trigger : Int), gainOf s100 env trigger = env) := by
  have key : ∀ w : Int, ∃ s1, setParameter m s Params.EnvAmpInt.toNat w = some s1 ∧
      s1.egAmp_ = (w : α) / 100 ∧ s1.egAmpRev_ = 1 - (w : α) / 100 := by
    intro w
    refine ⟨_, by simp [setParameter, Params.toNat]; rfl, ?_, ?_⟩
    · show 1 / 100 * (w : α) = (w : α) / 100
      ring
    · show 1 - 1 / 100 * (w : α) = 1 - (w : α) / 100
      ring
  refine ⟨?_, ?_, ?_⟩
  · obtain ⟨s1, h, ha, hr⟩ := key v
    refine ⟨s1, h, ha, by rw [hr, ha], by rw [hr, ha]; ring, ?_⟩
    intro env trigger
    simp only [gainOf, ha, hr]
  · obtain ⟨s0, h, ha, hr⟩ := key 0
    refine ⟨s0, h, ?_⟩
    intro env trigger
    simp [gainOf, ha, hr]
  · obtain ⟨s100, h, ha, hr⟩ := key 100
    refine ⟨s100, h, ?_⟩
    intro env trigger
    simp only [gainOf, ha, hr]
    norm_num

/-- C10: with the real power function for `powf`, for every state (base note, cutoff offset
and cutoff modulation depth unrestricted) and every envelope level, the cutoff
`min(23999, note2freq(max(0, note + cutoffOffset + egCutoff * env)))` is strictly greater
than 0, at most 23999, hence below the Nyquist frequency 24000; it is at least
`note2freq(0) = (440 / 32) * 2 ^ (-9 / 12)`, a value it takes when the base note, the
cutoff offset and the modulation depth are 0; and every cutoff that a `Render` call passes
to `filter_.set` lies in these bounds. -/
theorem C10_filter_cutoff_clamp (m : MaxiLib ℝ) (s : Synth ℝ) (env : ℝ) (out : Nat → ℝ)
    (n extra : Nat) :
    0 < cutoffOf { m with powf := Real.rpow } s env ∧
      cutoffOf { m with powf := Real.rpow } s env ≤ 23999 ∧
      cutoffOf { m with powf := Real.rpow } s env < 24000 ∧
      note2freq Real.rpow 0 ≤ cutoffOf { m with powf := Real.rpow } s env ∧
      note2freq Real.rpow 0 = 440 / 32 * (2 : ℝ) ^ (-9 / 12 : ℝ) ∧
      cutoffOf { m with powf := Real.rpow }
          { s with note_ := 0, cutoffOffset_ := 0, egCutoff_ := 0 } env =
        note2freq Real.rpow 0 ∧
      ∃ st, Render { m with powf := Real.rpow } s out n (n + extra) = some st ∧
        (filterCutoffs st.trace).length = n ∧
        ∀ c ∈ filterCutoffs st.trace,
          0 < c ∧ c ≤ 23999 ∧ c < 24000 ∧ note2freq Real.rpow 0 ≤ c := by
  have hb := cutoffOf_rpow_bounds m s env
  have h0 := note2freq_rpow_pos 0
  refine ⟨by linarith [hb.1], hb.2, by linarith [hb.2], hb.1, ?_, ?_,
    ⟨_, Render_eq_iterate _ s out n extra, ?_, ?_⟩⟩
  · unfold note2freq
    norm_num
  · have hz := note2freq_rpow_zero_le
    unfold cutoffOf
    simp only [Int.cast_zero, zero_add, zero_mul, max_self]
    exact min_eq_right (by linarith)
  · rw [iterate_filterCutoffs_length]
    simp [filterCutoffs]
  · intro c hc
    have h := iterate_filterCutoffs { m with powf := Real.rpow } (triggerOf s)
      (fun c => 0 < c ∧ c ≤ 23999 ∧ c < 24000 ∧ note2freq Real.rpow 0 ≤ c)
      (fun s1 env1 => by
        have hb1 := cutoffOf_rpow_bounds m s1 env1
        exact ⟨by linarith [hb1.1], hb1.2, by linarith [hb1.2], hb1.1⟩)
      n _ c hc
    rcases h with h | h
    · simp [filterCutoffs] at h
    · exact h

/-! ## Frames: what the events leave alone -/

/-- C11: for every state, `Reset` sets the gate count to 0 and the oscillator shape to
sawtooth, and leaves the envelope state, the filter state, the base note, the amplitude
scalar, the cutoff and resonance values, the four modulation depths (and the reverse
amplitude scalar), all 24 stored parameter values and the rest of the oscillator
unchanged. -/
theorem C11_Reset_effect_and_frame (s : Synth α) :
    (Reset s).gate_ = 0 ∧
      (Reset s).oscillator_.waveform = Waveform.SAWTOOTH ∧
      (Reset s).envelope_ = s.envelope_ ∧
      (Reset s).filter_ = s.filter_ ∧
      (Reset s).note_ = s.note_ ∧
      (Reset s).amp_ = s.amp_ ∧
      (Reset s).cutoffOffset_ = s.cutoffOffset_ ∧
      (Reset s).resonance_ = s.resonance_ ∧
      (Reset s).egAmp_ = s.egAmp_ ∧
      (Reset s).egAmpRev_ = s.egAmpRev_ ∧
      (Reset s).egPitch_ = s.egPitch_ ∧
      (Reset s).egCutoff_ = s.egCutoff_ ∧
      (Reset s).egPwm_ = s.egPwm_ ∧
      (∀ j : Fin 24, (Reset s).p_ j = s.p_ j) ∧
      (Reset s).oscillator_.pulseWidth = s.oscillator_.pulseWidth ∧
      (Reset s).oscillator_.phase = s.oscillator_.phase ∧
      (Reset s).oscillator_.sampleRate = s.oscillator_.sampleRate ∧
      Reset s =
        { s with
          oscillator_ := { s.oscillator_ with waveform := Waveform.SAWTOOTH }
          gate_ := 0 } := by
  refine ⟨rfl, rfl, rfl, rfl, rfl, rfl, rfl, rfl, rfl, rfl, rfl, rfl, rfl, fun _ => rfl,
    rfl, rfl, rfl, rfl⟩

/-- C12: for every state and every argument, `AllNoteOff`, `PitchBend`, `ChannelPressure`,
`Aftertouch`, `LoadPreset`, `Resume`, `Suspend` and `Teardown` return the state they were
given; so `AllNoteOff` leaves the gate count where it was and the trigger of the next
`Render` is still 1 when the gate count was greater than 0. -/
theorem C12_noop_events (s : Synth α) (bend pressure note aftertouch idx : Nat) :
    AllNoteOff s = s ∧
      PitchBend s bend = s ∧
      ChannelPressure s pressure = s ∧
      Aftertouch s note aftertouch = s ∧
      LoadPreset s idx = s ∧
      Resume s = s ∧
      Suspend s = s ∧
      Teardown s = s ∧
      (AllNoteOff s).gate_ = s.gate_ ∧
      triggerOf (AllNoteOff s) = (if 0 < s.gate_ then 1 else 0) := by
  refine ⟨rfl, rfl, rfl, rfl, rfl, rfl, rfl, rfl, rfl, rfl⟩

/-- C18: for distinct indices `i`, `j` below 24 and every value `v`, `setParameter(i, v)`
leaves `getParameterValue(j)` unchanged; `NoteOn`, `NoteOff`, `Reset` and `Render` leave
all 24 stored values unchanged; and after `setParameter(Note, a)` followed by
`NoteOn(b, vel)` with `b != a`, `getParameterValue(Note)` still returns `a` while the base
note, the one `Render` computes the pitch from, is `b`. -/
theorem C18_parameter_store_frame [LinearOrderedField α] (m : MaxiLib α) (s : Synth α)
    (i j : Nat) (v a : Int) (b vel : Nat) (out : Nat → α) (n extra : Nat)
    (hi : i < 24) (hj : j < 24) (hij : i ≠ j) (hab : (b : Int) ≠ a) :
    (setParameter m s i v).bind (fun s1 => getParameterValue s1 j) =
        getParameterValue s j ∧
      (NoteOn s b vel).p_ = s.p_ ∧
      (NoteOff s b).p_ = s.p_ ∧
      (Reset s).p_ = s.p_ ∧
      (∃ st, Render m s out n (n + extra) = some st ∧ st.synth.p_ = s.p_) ∧
      (∃ s1, setParameter m s Params.Note.toNat a = some s1 ∧
        s1.note_ = a ∧
        getParameterValue (NoteOn s1 b vel) Params.Note.toNat = some a ∧
        (NoteOn s1 b vel).note_ = (b : Int) ∧
        (NoteOn s1 b vel).note_ ≠ a ∧
        ∀ env : α, pitchOf m (NoteOn s1 b vel) env =
          note2freq m.powf (((b : Int) : α) + s1.egPitch_ * env)) := by
  refine ⟨?_, rfl, ?_, rfl, ⟨_, Render_eq_iterate m s out n extra, ?_⟩, ?_⟩
  · rw [setParameter_eq_some m s i v hi]
    have hne : (⟨j, hj⟩ : Fin 24) ≠ ⟨i, hi⟩ := by
      intro h
      exact hij (Fin.mk.inj h).symm
    simp [getParameterValue, hj, setDerived_p_, Function.update_noteq hne]
  · unfold NoteOff GateOff
    split <;> rfl
  · exact iterate_synth_field m (triggerOf s) (fun x => x.p_) (fun _ => rfl) n _
  · have h0 : Params.Note.toNat < 24 := by decide
    refine ⟨_, setParameter_eq_some m s Params.Note.toNat a h0, rfl, ?_, rfl, hab, ?_⟩
    · show getParameterValue _ 0 = some a
      simp only [getParameterValue, NoteOn, GateOn, setDerived_p_,
        show (0 : Nat) < 24 by decide, dite_true]
      exact congrArg some (Function.update_same (⟨Params.Note.toNat, h0⟩ : Fin 24) a s.p_)
    · intro env
      rfl

/-- Witness of C18: Note (index 0) against Waveform (index 1), and `NoteOn(64, 100)` after
`setParameter(Note, 60)`. -/
theorem C18_parameter_store_frame_witness :
    (0 < 24 ∧ 1 < 24 ∧ 0 ≠ 1 ∧ ((64 : Nat) : Int) ≠ 60) ∧
      (setParameter demoLib demoSynth 0 60).bind (fun s1 => getParameterValue s1 1) =
        getParameterValue demoSynth 1 :=
  ⟨⟨by decide, by decide, by decide, by decide⟩,
    (C18_parameter_store_frame demoLib demoSynth 0 1 60 60 64 100 (fun _ => 0) 2 0
      (by decide) (by decide) (by decide) (by decide)).1⟩

/-- C19: the oscillator shape is the shape mapped from the stored Waveform value after
every `setParameter(Waveform, v)`, but `Reset` does not preserve this: after
`setParameter(Waveform, 2)` and `Reset` the shape is sawtooth while
`getParameterValue(Waveform)` still returns 2, whose mapped shape is triangle. -/
theorem C19_Reset_desynchronises_waveform [LinearOrderedField α] (m : MaxiLib α)
    (s : Synth α) (v : Int) :
    (∃ s1, setParameter m s Params.Waveform.toNat v = some s1 ∧ WaveformInSync s1) ∧
      (∃ s2, setParameter m s Params.Waveform.toNat 2 = some s2 ∧
        WaveformInSync s2 ∧
        (Reset s2).oscillator_.waveform = Waveform.SAWTOOTH ∧
        getParameterValue (Reset s2) Params.Waveform.toNat = some 2 ∧
        waveformOfValue 2 = Waveform.TRIANGLE ∧
        ¬ WaveformInSync (Reset s2)) := by
  have h1 : Params.Waveform.toNat < 24 := by decide
  have key : ∀ w : Int, ∃ s1, setParameter m s Params.Waveform.toNat w = some s1 ∧
      s1.oscillator_.waveform = waveformOfValue w ∧ s1.p_ ⟨1, by decide⟩ = w := by
    intro w
    refine ⟨_, setParameter_eq_some m s Params.Waveform.toNat w h1, ?_, ?_⟩
    · simp only [setDerived, Params.toNat, Params.ofNat?, waveformOfValue]
      split_ifs <;> rfl
    · rw [setDerived_p_]
      simp [Params.toNat]
  refine ⟨?_, ?_⟩
  · obtain ⟨s1, hs, hw, hp⟩ := key v
    exact ⟨s1, hs, by unfold WaveformInSync; rw [hw, hp]⟩
  · obtain ⟨s2, hs, hw, hp⟩ := key 2
    refine ⟨s2, hs, by unfold WaveformInSync; rw [hw, hp], rfl, ?_, by decide, ?_⟩
    · show getParameterValue (Reset s2) 1 = some 2
      simp only [getParameterValue, show (1 : Nat) < 24 by decide, dite_true]
      exact congrArg some hp
    · unfold WaveformInSync
      show ¬ (Waveform.SAWTOOTH = waveformOfValue ((Reset s2).p_ ⟨1, by decide⟩))
      have hp2 : (Reset s2).p_ ⟨1, by decide⟩ = 2 := hp
      rw [hp2]
      decide

/-! ## Envelope parameters -/

/-- C13 (as stated, refuted): `setParameter(Sustain, 0)` does not pass `0 + 1` to
`setSustain`; it passes `0.01 * 0 = 0`, so with `v = 0` the sustain stage is configured
with 0.  At `v = 50` it passes `1 / 2`, not 51. -/
theorem C13_sustain_is_not_offset :
    (setParameter demoLib demoSynth Params.Sustain.toNat 0).map
        (fun s1 => s1.envelope_) = some (demoSynth.envelope_.setSustain 0) ∧
      (setParameter demoLib demoSynth Params.Sustain.toNat 0).map
        (fun s1 => s1.envelope_.sustainLevel) = some 0 ∧
      (setParameter demoLib demoSynth Params.Sustain.toNat 0).map
        (fun s1 => s1.envelope_.sustainLevel) ≠ some (((0 + 1 : Int) : ℚ)) ∧
      (setParameter demoLib demoSynth Params.Sustain.toNat 50).map
        (fun s1 => s1.envelope_.sustainLevel) = some (1 / 2) := by
  have key : ∀ w : Int, (setParameter demoLib demoSynth Params.Sustain.toNat w).map
      (fun s1 => s1.envelope_) = some (demoSynth.envelope_.setSustain (1 / 100 * (w : ℚ))) :=
    fun w => by
      rw [setParameter_eq_some demoLib demoSynth Params.Sustain.toNat w (by decide)]
      rfl
  have key2 : ∀ w : Int, (setParameter demoLib demoSynth Params.Sustain.toNat w).map
      (fun s1 => s1.envelope_.sustainLevel) = some (1 / 100 * (w : ℚ)) :=
    fun w => by
      rw [setParameter_eq_some demoLib demoSynth Params.Sustain.toNat w (by decide)]
      rfl
  refine ⟨?_, ?_, ?_, ?_⟩
  · rw [key 0]
    norm_num
  · rw [key2 0]
    norm_num
  · rw [key2 0]
    norm_num
  · rw [key2 50]
    norm_num

/-- C13 (amended): for each of the three parameters Attack, Decay and Release and every
32-bit value `v` below `2 ^ 31 - 1`, `setParameter` passes `v + 1` to the corresponding
envelope setter (`setAttackMS`, `setDecay`, `setRelease`), so that for `v >= 0` no stage time
is configured with 0; for Sustain it passes `v / 100` to `setSustain`. -/
theorem C13_envelope_time_offset [LinearOrderedField α] (m : MaxiLib α) (s : Synth α)
    (v : Int) (hlo : -2147483648 ≤ v) (hhi : v < 2147483647) :
    (setParameter m s Params.Attack.toNat v).map (fun s1 => s1.envelope_) =
        some (s.envelope_.setAttackMS ((v + 1 : Int) : α)) ∧
      (setParameter m s Params.Decay.toNat v).map (fun s1 => s1.envelope_) =
        some (s.envelope_.setDecay ((v + 1 : Int) : α)) ∧
      (setParameter m s Params.Release.toNat v).map (fun s1 => s1.envelope_) =
        some (s.envelope_.setRelease ((v + 1 : Int) : α)) ∧
      (setParameter m s Params.Sustain.toNat v).map (fun s1 => s1.envelope_) =
        some (s.envelope_.setSustain ((v : α) / 100)) ∧
      (0 ≤ v →
        (setParameter m s Params.Attack.toNat v).map (fun s1 => s1.envelope_.attackMS) ≠
            some 0 ∧
          (setParameter m s Params.Decay.toNat v).map (fun s1 => s1.envelope_.decayMS) ≠
            some 0 ∧
          (setParameter m s Params.Release.toNat v).map (fun s1 => s1.envelope_.releaseMS) ≠
            some 0) := by
  have hw : wrapInt32 (v + 1) = v + 1 := wrapInt32_eq_self _ (by omega) (by omega)
  have hA : (setParameter m s Params.Attack.toNat v).map (fun s1 => s1.envelope_) =
      some (s.envelope_.setAttackMS ((v + 1 : Int) : α)) := by
    rw [setParameter_eq_some m s Params.Attack.toNat v (by decide), ← hw]
    rfl
  have hD : (setParameter m s Params.Decay.toNat v).map (fun s1 => s1.envelope_) =
      some (s.envelope_.setDecay ((v + 1 : Int) : α)) := by
    rw [setParameter_eq_some m s Params.Decay.toNat v (by decide), ← hw]
    rfl
  have hR : (setParameter m s Params.Release.toNat v).map (fun s1 => s1.envelope_) =
      some (s.envelope_.setRelease ((v + 1 : Int) : α)) := by
    rw [setParameter_eq_some m s Params.Release.toNat v (by decide), ← hw]
    rfl
  refine ⟨hA, hD, hR, ?_, ?_⟩
  · rw [setParameter_eq_some m s Params.Sustain.toNat v (by decide)]
    show some (s.envelope_.setSustain (1 / 100 * (v : α))) = _
    rw [one_div_mul_eq_div]
  · intro h0
    have hne : ((v + 1 : Int) : α) ≠ 0 := by
      have : (v + 1 : Int) ≠ 0 := by omega
      exact_mod_cast this
    have hA2 := congrArg (Option.map (fun e : maxiEnv α => e.attackMS)) hA
    have hD2 := congrArg (Option.map (fun e : maxiEnv α => e.decayMS)) hD
    have hR2 := congrArg (Option.map (fun e : maxiEnv α => e.releaseMS)) hR
    simp only [Option.map_map, Option.map_some'] at hA2 hD2 hR2
    refine ⟨?_, ?_, ?_⟩
    · intro h
      rw [show ((fun e : maxiEnv α => e.attackMS) ∘ fun s1 : Synth α => s1.envelope_) =
        (fun s1 : Synth α => s1.envelope_.attackMS) from rfl, h] at hA2
      exact hne (Option.some.inj hA2).symm
    · intro h
      rw [show ((fun e : maxiEnv α => e.decayMS) ∘ fun s1 : Synth α => s1.envelope_) =
        (fun s1 : Synth α => s1.envelope_.decayMS) from rfl, h] at hD2
      exact hne (Option.some.inj hD2).symm
    · intro h
      rw [show ((fun e : maxiEnv α => e.releaseMS) ∘ fun s1 : Synth α => s1.envelope_) =
        (fun s1 : Synth α => s1.envelope_.releaseMS) from rfl, h] at hR2
      exact hne (Option.some.inj hR2).symm

/-- Witness of C13 (amended): the value 0, the lower end of the declared range
`0..1000`. -/
theorem C13_envelope_time_offset_witness :
    ((-2147483648 : Int) ≤ 0 ∧ (0 : Int) < 2147483647) ∧
      (setParameter demoLib demoSynth Params.Attack.toNat 0).map (fun s1 => s1.envelope_) =
        some (demoSynth.envelope_.setAttackMS (((0 : Int) + 1 : Int) : ℚ)) :=
  ⟨⟨by decide, by decide⟩,
    (C13_envelope_time_offset demoLib demoSynth 0 (by decide) (by decide)).1⟩

/-- C14: for every Sustain value `v` in the declared range `0..100`, the sustain level that
`setParameter` configures is `v / 100`, lies in `[0, 1]`, is 0 at `v = 0` and 1 at
`v = 100`, and is not greater than the level configured for any larger value `w`. -/
theorem C14_sustain_level_range [LinearOrderedField α] (m : MaxiLib α) (s : Synth α)
    (v w : Int) (hv : inDeclaredRange Params.Sustain.toNat v = true) (hvw : v ≤ w) :
    ∃ lv lw : α,
      (setParameter m s Params.Sustain.toNat v).map
          (fun s1 => s1.envelope_.sustainLevel) = some lv ∧
        (setParameter m s Params.Sustain.toNat w).map
          (fun s1 => s1.envelope_.sustainLevel) = some lw ∧
        lv = (v : α) / 100 ∧
        0 ≤ lv ∧ lv ≤ 1 ∧ lv ≤ lw ∧
        (setParameter m s Params.Sustain.toNat 0).map
          (fun s1 => s1.envelope_.sustainLevel) = some 0 ∧
        (setParameter m s Params.Sustain.toNat 100).map
          (fun s1 => s1.envelope_.sustainLevel) = some 1 := by
  have key : ∀ x : Int, (setParameter m s Params.Sustain.toNat x).map
      (fun s1 => s1.envelope_.sustainLevel) = some ((x : α) / 100) := by
    intro x
    rw [setParameter_eq_some m s Params.Sustain.toNat x (by decide)]
    show some (1 / 100 * (x : α)) = _
    rw [one_div_mul_eq_div]
  rw [inDeclaredRange_Sustain] at hv
  have hv0 : (0 : α) ≤ (v : α) := by exact_mod_cast hv.1
  have hv1 : (v : α) ≤ 100 := by exact_mod_cast hv.2
  have hvw2 : (v : α) ≤ (w : α) := by exact_mod_cast hvw
  refine ⟨(v : α) / 100, (w : α) / 100, key v, key w, rfl, by positivity, ?_, ?_, ?_, ?_⟩
  · rw [div_le_one (by norm_num : (0 : α) < 100)]
    exact hv1
  · exact div_le_div_of_nonneg_right hvw2 (by norm_num)
  · rw [key 0]
    simp
  · rw [key 100]
    simp

/-- Witness of C14: the values 25 and 75. -/
theorem C14_sustain_level_range_witness :
    (inDeclaredRange Params.Sustain.toNat 25 = true ∧ (25 : Int) ≤ 75) ∧
      ∃ lv lw : ℚ,
        (setParameter demoLib demoSynth Params.Sustain.toNat 25).map
            (fun s1 => s1.envelope_.sustainLevel) = some lv ∧
          (setParameter demoLib demoSynth Params.Sustain.toNat 75).map
            (fun s1 => s1.envelope_.sustainLevel) = some lw ∧
          lv = ((25 : Int) : ℚ) / 100 ∧
          0 ≤ lv ∧ lv ≤ 1 ∧ lv ≤ lw ∧
          (setParameter demoLib demoSynth Params.Sustain.toNat 0).map
            (fun s1 => s1.envelope_.sustainLevel) = some 0 ∧
          (setParameter demoLib demoSynth Params.Sustain.toNat 100).map
            (fun s1 => s1.envelope_.sustainLevel) = some 1 :=
  ⟨⟨by decide, by decide⟩,
    C14_sustain_level_range demoLib demoSynth 25 75 (by decide) (by decide)⟩

/-! ## Modulation ranges -/

/-- C16 (as stated, refuted): at `v = 100`, inside the declared range, and envelope level
1, the `float` that the code stores in `egPwm_` is `16441672 / 2 ^ 25`
(0.49000000953674316) and the pulse width `0.5f + egPwm_ * env` that `Render` passes to
`setPulseWidth` is `16609444 / 2 ^ 24` (0.99000000953674316), which is greater than
0.99. -/
theorem C16_pulse_width_exceeds_bound :
    inDeclaredRange Params.EnvPWMInt.toNat 100 = true ∧
      egPwmFloat 100 = (16441672, 25) ∧
      pulseWidthFloat 100 (1, 0) = (16609444, 24) ∧
      binaryValue (1, 0) = 1 ∧
      binaryValue (pulseWidthFloat 100 (1, 0)) = 16609444 / 16777216 ∧
      (99 / 100 : ℚ) < binaryValue (pulseWidthFloat 100 (1, 0)) ∧
      ¬ (binaryValue (pulseWidthFloat 100 (1, 0)) ≤ 99 / 100) := by
  have h : pulseWidthFloat 100 (1, 0) = (16609444, 24) := by decide
  refine ⟨by decide, by decide, h, ?_, ?_, ?_, ?_⟩
  · norm_num [binaryValue]
  · rw [h]
    norm_num [binaryValue]
  · rw [h]
    norm_num [binaryValue]
  · rw [h]
    norm_num [binaryValue]

/-- C16 (amended): for every EnvPWMInt value `v` in the declared range `0..100` and every
envelope level `env` in `[0, 1]`, the pulse width `0.5 + (0.0049 * v) * env` lies in
`[0.5, 0.99000001]` (the upper end 0.99 is met up to the rounding of `float`), hence
strictly inside `(0, 1)`; when the envelope only returns levels in `[0, 1]`, every pulse
width that a `Render` call passes to `setPulseWidth` lies in `[0.5, 0.99000001]`; and the
`float` that the code computes at envelope level 1 lies in `[0.5, 0.99000001]` for every
value from 1 to 100. -/
theorem C16_pulse_width_duty_cycle [LinearOrderedField α] (m : MaxiLib α) (s : Synth α)
    (v : Int) (env : α) (out : Nat → α) (n extra : Nat)
    (hv : inDeclaredRange Params.EnvPWMInt.toNat v = true) (h0 : 0 ≤ env) (h1 : env ≤ 1)
    (hadsr : ∀ (e : maxiEnv α) (a : α) (tr : Int),
      0 ≤ (m.adsr e a tr).1 ∧ (m.adsr e a tr).1 ≤ 1) :
    ∃ s1, setParameter m s Params.EnvPWMInt.toNat v = some s1 ∧
      1 / 2 ≤ pulseWidthOf s1 env ∧ pulseWidthOf s1 env ≤ 99000001 / 100000000 ∧
      0 < pulseWidthOf s1 env ∧ pulseWidthOf s1 env < 1 ∧
      ∃ st, Render m s1 out n (n + extra) = some st ∧
        (pulseWidths st.trace).length = n ∧
        (∀ w ∈ pulseWidths st.trace,
          1 / 2 ≤ w ∧ w ≤ 99000001 / 100000000 ∧ 0 < w ∧ w < 1) ∧
        ∀ u, u ≤ 99 →
          1 / 2 ≤ binaryValue (pulseWidthFloat (u + 1) (1, 0)) ∧
            binaryValue (pulseWidthFloat (u + 1) (1, 0)) ≤ 99000001 / 100000000 := by
  rw [inDeclaredRange_EnvPWMInt] at hv
  have hv0 : (0 : α) ≤ (v : α) := by exact_mod_cast hv.1
  have hv1 : (v : α) ≤ 100 := by exact_mod_cast hv.2
  have hp0 : (0 : α) ≤ 49 / 10000 * (v : α) := by positivity
  have hp1 : 49 / 10000 * (v : α) ≤ 49 / 100 := by linarith
  have bound : ∀ e : α, 0 ≤ e → e ≤ 1 →
      1 / 2 ≤ 1 / 2 + (49 / 10000 * (v : α)) * e ∧
        1 / 2 + (49 / 10000 * (v : α)) * e ≤ 99000001 / 100000000 ∧
        0 < 1 / 2 + (49 / 10000 * (v : α)) * e ∧
        1 / 2 + (49 / 10000 * (v : α)) * e < 1 := by
    intro e he0 he1
    have hm0 : 0 ≤ (49 / 10000 * (v : α)) * e := mul_nonneg hp0 he0
    have hm1 : (49 / 10000 * (v : α)) * e ≤ 49 / 100 * 1 :=
      mul_le_mul hp1 he1 he0 (by norm_num)
    refine ⟨?_, ?_, ?_, ?_⟩ <;> linarith
  refine ⟨_, setParameter_eq_some m s Params.EnvPWMInt.toNat v (by decide),
    (bound env h0 h1).1, (bound env h0 h1).2.1, (bound env h0 h1).2.2.1,
    (bound env h0 h1).2.2.2, ⟨_, Render_eq_iterate m _ out n extra, ?_, ?_, ?_⟩⟩
  · rw [iterate_pulseWidths_length]
    simp [pulseWidths]
  · intro w hw
    rcases iterate_pulseWidths m _ hadsr n _ w hw with h | ⟨e, he0, he1, h⟩
    · simp [pulseWidths] at h
    · rw [h]
      exact bound e he0 he1
  · intro u hu
    have hb := pulseWidthFloat_bounds u hu
    constructor
    · have := le_binaryValue (pulseWidthFloat (u + 1) (1, 0)) 1 2 (by decide)
        (by rw [one_mul]; omega)
      simpa using this
    · have := binaryValue_le (pulseWidthFloat (u + 1) (1, 0)) 99000001 100000000
        (by decide) hb.2
      simpa using this

/-- Witness of C16 (amended): full modulation depth at the top of the envelope. -/
theorem C16_pulse_width_duty_cycle_witness :
    (inDeclaredRange Params.EnvPWMInt.toNat 100 = true ∧ (0 : ℚ) ≤ 1 ∧ (1 : ℚ) ≤ 1 ∧
        ∀ (e : maxiEnv ℚ) (a : ℚ) (tr : Int),
          0 ≤ (demoLib.adsr e a tr).1 ∧ (demoLib.adsr e a tr).1 ≤ 1) ∧
      ∃ s1, setParameter demoLib demoSynth Params.EnvPWMInt.toNat 100 = some s1 ∧
        1 / 2 ≤ pulseWidthOf s1 1 ∧ pulseWidthOf s1 1 ≤ 99000001 / 100000000 ∧
        0 < pulseWidthOf s1 1 ∧ pulseWidthOf s1 1 < 1 ∧
        ∃ st, Render demoLib s1 (fun _ => 0) 2 (2 + 0) = some st ∧
          (pulseWidths st.trace).length = 2 ∧
          (∀ w ∈ pulseWidths st.trace,
            1 / 2 ≤ w ∧ w ≤ 99000001 / 100000000 ∧ 0 < w ∧ w < 1) ∧
          ∀ u, u ≤ 99 →
            1 / 2 ≤ binaryValue (pulseWidthFloat (u + 1) (1, 0)) ∧
              binaryValue (pulseWidthFloat (u + 1) (1, 0)) ≤ 99000001 / 100000000 := by
  have hadsr : ∀ (e : maxiEnv ℚ) (a : ℚ) (tr : Int),
      0 ≤ (demoLib.adsr e a tr).1 ∧ (demoLib.adsr e a tr).1 ≤ 1 := by
    intro e a tr
    show (0 : ℚ) ≤ 0 ∧ (0 : ℚ) ≤ 1
    norm_num
  exact ⟨⟨by decide, by norm_num, le_rfl, hadsr⟩,
    C16_pulse_width_duty_cycle demoLib demoSynth 100 1 (fun _ => 0) 2 0 (by decide)
      (by norm_num) le_rfl hadsr⟩

/-- C20: for every EnvAmpInt value `v` in the declared range `0..100`, every envelope level
`env` in `[0, 1]` and both triggers 0 and 1, the gain `egAmp * env + egAmpRev * trigger`
with `egAmp = v / 100` and `egAmpRev = 1 - egAmp` lies in `[0, 1]`; with trigger 0 it
equals `egAmp * env`; and at `v = 0` with gate count 0 every sample that `Render` writes is
exactly 0, whatever the envelope, the oscillator and the filter return. -/
theorem C20_amplifier_gain_bounded [LinearOrderedField α] (m : MaxiLib α) (s : Synth α)
    (v : Int) (env : α) (out : Nat → α) (n extra : Nat)
    (hv : inDeclaredRange Params.EnvAmpInt.toNat v = true) (h0 : 0 ≤ env) (h1 : env ≤ 1) :
    (∃ s1, setParameter m s Params.EnvAmpInt.toNat v = some s1 ∧
      s1.egAmp_ = (v : α) / 100 ∧ s1.egAmpRev_ = 1 - s1.egAmp_ ∧
      0 ≤ gainOf s1 env 0 ∧ gainOf s1 env 0 ≤ 1 ∧
      0 ≤ gainOf s1 env 1 ∧ gainOf s1 env 1 ≤ 1 ∧
      gainOf s1 env 0 = s1.egAmp_ * env) ∧
      ∃ s0, setParameter m { s with gate_ := 0 } Params.EnvAmpInt.toNat 0 = some s0 ∧
        s0.gate_ = 0 ∧
        (∀ e : α, gainOf s0 e (triggerOf s0) = 0) ∧
        ∃ st, Render m s0 out n (n + extra) = some st ∧
          ∀ j, j < 2 * n → st.out j = 0 := by
  rw [inDeclaredRange_EnvAmpInt] at hv
  have hv0 : (0 : α) ≤ (v : α) := by exact_mod_cast hv.1
  have hv1 : (v : α) ≤ 100 := by exact_mod_cast hv.2
  have ha0 : (0 : α) ≤ (v : α) / 100 := by positivity
  have ha1 : (v : α) / 100 ≤ 1 := by
    rw [div_le_one (by norm_num : (0 : α) < 100)]
    exact hv1
  have hm0 : 0 ≤ (v : α) / 100 * env := mul_nonneg ha0 h0
  have hm1 : (v : α) / 100 * env ≤ 1 * 1 := mul_le_mul ha1 h1 h0 (by norm_num)
  have hm2 : (v : α) / 100 * env ≤ (v : α) / 100 * 1 := mul_le_mul_of_nonneg_left h1 ha0
  have hs1 : ∃ s1, setParameter m s Params.EnvAmpInt.toNat v = some s1 ∧
      s1.egAmp_ = (v : α) / 100 ∧ s1.egAmpRev_ = 1 - (v : α) / 100 := by
    refine ⟨_, setParameter_eq_some m s Params.EnvAmpInt.toNat v (by decide), ?_, ?_⟩
    · show 1 / 100 * (v : α) = (v : α) / 100
      ring
    · show 1 - 1 / 100 * (v : α) = 1 - (v : α) / 100
      ring
  have hz : ∀ e : α, gainOf
      (setDerived m { { s with gate_ := 0 } with
        p_ := Function.update s.p_ ⟨Params.EnvAmpInt.toNat, by decide⟩ 0 }
        Params.EnvAmpInt.toNat 0) e 0 = 0 := by
    intro e
    show 1 / 100 * ((0 : Int) : α) * e + (1 - 1 / 100 * ((0 : Int) : α)) * ((0 : Int) : α) = 0
    simp
  refine ⟨?_, ⟨_, setParameter_eq_some m _ Params.EnvAmpInt.toNat 0 (by decide), rfl, hz,
    ⟨_, Render_eq_iterate m _ out n extra, ?_⟩⟩⟩
  · obtain ⟨s1, hs, ha, hr⟩ := hs1
    refine ⟨s1, hs, ha, by rw [hr, ha], ?_, ?_, ?_, ?_, ?_⟩
    · simp only [gainOf, ha, hr, Int.cast_zero, mul_zero, add_zero]
      exact hm0
    · simp only [gainOf, ha, hr, Int.cast_zero, mul_zero, add_zero]
      linarith
    · simp only [gainOf, ha, hr, Int.cast_one, mul_one]
      linarith
    · simp only [gainOf, ha, hr, Int.cast_one, mul_one]
      linarith
    · simp only [gainOf, ha, hr, Int.cast_zero, mul_zero, add_zero]
  · intro j hj
    exact iterate_out_zero m _ n _ hz j (Nat.zero_le _) (by simpa using hj)

/-- Witness of C20: half modulation depth at the top of the envelope. -/
theorem C20_amplifier_gain_bounded_witness :
    (inDeclaredRange Params.EnvAmpInt.toNat 50 = true ∧ (0 : ℚ) ≤ 1 ∧ (1 : ℚ) ≤ 1) ∧
      ∃ s1, setParameter demoLib demoSynth Params.EnvAmpInt.toNat 50 = some s1 ∧
        s1.egAmp_ = ((50 : Int) : ℚ) / 100 ∧ s1.egAmpRev_ = 1 - s1.egAmp_ ∧
        0 ≤ gainOf s1 1 0 ∧ gainOf s1 1 0 ≤ 1 ∧
        0 ≤ gainOf s1 1 1 ∧ gainOf s1 1 1 ≤ 1 ∧
        gainOf s1 1 0 = s1.egAmp_ * 1 :=
  ⟨⟨by decide, by norm_num, le_rfl⟩,
    (C20_amplifier_gain_bounded demoLib demoSynth 50 1 (fun _ => 0) 2 0 (by decide)
      (by norm_num) le_rfl).1⟩

/-- C17 (the code at the failing input): after `setParameter(Note, 127)` and
`setParameter(EnvPitchInt, 100)`, both values inside their declared ranges, and at envelope
level 1, the frequency `note2freq(note + egPitch * env)` is `note2freq(151)`, which is
above 28 kHz: it is not clamped and it is not below 24000.  With an envelope that returns
level 1, one frame of `Render` passes exactly this frequency to `oscillator_.play`, while
the cutoff it passes to `filter_.set` in the same frame is clamped to at most 23999. -/
theorem C17_oscillator_frequency_not_clamped (m : MaxiLib ℝ) (s : Synth ℝ)
    (out : Nat → ℝ) :
    inDeclaredRange Params.Note.toNat 127 = true ∧
      inDeclaredRange Params.EnvPitchInt.toNat 100 = true ∧
      ∃ s2, (setParameter { m with powf := Real.rpow } s Params.Note.toNat 127).bind
            (fun s1 => setParameter { m with powf := Real.rpow } s1
              Params.EnvPitchInt.toNat 100) = some s2 ∧
        s2.note_ = 127 ∧ s2.egPitch_ = 24 ∧
        pitchOf { m with powf := Real.rpow } s2 1 = note2freq Real.rpow 151 ∧
        24000 < pitchOf { m with powf := Real.rpow } s2 1 ∧
        ∃ st, Render { m with powf := Real.rpow, adsr := fun e _ _ => (1, e) } s2 out 1 1 =
            some st ∧
          oscFrequencies st.trace = [note2freq Real.rpow 151] ∧
          (∀ f ∈ oscFrequencies st.trace, 24000 < f) ∧
          (∀ c ∈ filterCutoffs st.trace, c ≤ 23999) := by
  have h151 := note2freq_rpow_151
  obtain ⟨s1, hs1, hn1⟩ : ∃ s1,
      setParameter { m with powf := Real.rpow } s Params.Note.toNat 127 = some s1 ∧
        s1.note_ = 127 :=
    ⟨_, setParameter_eq_some _ s Params.Note.toNat 127 (by decide), rfl⟩
  obtain ⟨s2, hs2, hn2, hp2⟩ : ∃ s2,
      setParameter { m with powf := Real.rpow } s1 Params.EnvPitchInt.toNat 100 = some s2 ∧
        s2.note_ = s1.note_ ∧ s2.egPitch_ = 24 / 100 * ((100 : Int) : ℝ) :=
    ⟨_, setParameter_eq_some _ s1 Params.EnvPitchInt.toNat 100 (by decide), rfl, rfl⟩
  have hp24 : s2.egPitch_ = 24 := by
    rw [hp2]
    norm_num
  have hn127 : s2.note_ = 127 := by rw [hn2, hn1]
  have hpitch : ∀ lib : MaxiLib ℝ, lib.powf = Real.rpow →
      pitchOf lib s2 1 = note2freq Real.rpow 151 := by
    intro lib hlib
    unfold pitchOf
    rw [hlib, hn127, hp24]
    congr 1
    norm_num
  refine ⟨by decide, by decide, s2, ?_, hn127, hp24, hpitch _ rfl, ?_,
    ⟨_, Render_eq_iterate _ s2 out 1 0, ?_, ?_, ?_⟩⟩
  · rw [hs1]
    exact hs2
  · rw [hpitch _ rfl]
    linarith
  · rw [Function.iterate_succ_apply, Function.iterate_zero, id, renderFrame_oscFrequencies]
    show [] ++ [pitchOf _ s2 1] = _
    rw [hpitch _ rfl]
    rfl
  · intro f hf
    rw [Function.iterate_succ_apply, Function.iterate_zero, id,
      renderFrame_oscFrequencies] at hf
    have hf2 : f = pitchOf
        { m with powf := Real.rpow, adsr := fun e _ _ => (1, e) } s2 1 := by
      simpa [oscFrequencies] using hf
    rw [hf2, hpitch _ rfl]
    linarith
  · intro c hc
    rw [Function.iterate_succ_apply, Function.iterate_zero, id,
      renderFrame_filterCutoffs] at hc
    have hc2 : c = cutoffOf
        { m with powf := Real.rpow, adsr := fun e _ _ => (1, e) } s2 1 := by
      simpa [filterCutoffs] using hc
    rw [hc2]
    exact min_le_left _ _

end Claims

end MaxiSynth
